import Mathlib

/-!
lkedns: keeping a DNS zone in step with the nodes of an LKE node pool.

A shallow embedding of `main.go` (functions `getIPs`, `setDNS` and the body of the
polling loop of `main`) together with the properties of the reconciliation
algorithm.

Modelling decisions:

* Go strings are Lean `String`s.  `sort.Strings` orders strings bytewise; on
  UTF-8 text this is the lexicographic order of the code points, which is the
  order used by `sortStrings`.
* The Linode API client `lc` is the only collaborator of the program.  It is
  modelled by the state `Cloud`: the node pool and the zone named by the command
  line options, a log of every call the program has issued, and an oracle
  `fails` telling for the `n`-th call whether it fails and with which error.
  A failed call has no effect on the zone.
* A Go function returning `(values..., error)` returns the same tuple here, with
  `Option Error` for `error` and `[]` for a `nil` slice.
* `map[string]struct{}` is a set of strings; it is modelled by a list of keys
  that is only ever queried for membership.
* `time.Sleep` and `log.Println` have no effect on the state that is modelled.
* The pointers inside the responses of the client (`ips.IPv4`, `ips.IPv6`,
  `ips.IPv6.SLAAC`, the entries of `ips.IPv4.Public`) are taken to be non-nil.
* Record and instance identifiers are natural numbers; the program only copies
  them, so the width of Go's `int` plays no part.
-/

namespace Lkedns

/-! ## Data model (types of `linodego` that the program reads) -/

/-- A Go `error` value handed out by the API client. -/
structure Error where
  msg : String
deriving DecidableEq, Repr

/-- The constant `linodego.RecordTypeA`. -/
def RecordTypeA : String := "A"

/-- The constant `linodego.RecordTypeAAAA`. -/
def RecordTypeAAAA : String := "AAAA"

/-- The fields of `linodego.DomainRecord` that `setDNS` reads. -/
structure DomainRecord where
  ID : Nat
  Type_ : String
  Name : String
  Target : String
deriving DecidableEq, Repr

/-- The fields of `linodego.DomainRecordCreateOptions` that `setDNS` sets. -/
structure DomainRecordCreateOptions where
  Name : String
  Type_ : String
  Target : String
deriving DecidableEq, Repr

/-- The fields of `linodego.InstanceIP` that `getIPs` reads. -/
structure InstanceIP where
  Address : String
  Public : Bool
deriving DecidableEq, Repr

/-- The part `IPv4` of the address response: only `Public` is read. -/
structure InstanceIPv4Response where
  Public : List InstanceIP
deriving DecidableEq, Repr

/-- The part `IPv6` of the address response: only `SLAAC` is read. -/
structure InstanceIPv6Response where
  SLAAC : InstanceIP
deriving DecidableEq, Repr

/-- The value `linodego.InstanceIPAddressResponse`. -/
structure InstanceIPAddressResponse where
  IPv4 : InstanceIPv4Response
  IPv6 : InstanceIPv6Response
deriving DecidableEq, Repr

/-- One entry of `pool.Linodes`. -/
structure LKEClusterPoolLinode where
  InstanceID : Nat
deriving DecidableEq, Repr

/-- The value `linodego.LKEClusterPool`: only `Linodes` is read. -/
structure LKEClusterPool where
  Linodes : List LKEClusterPoolLinode
deriving DecidableEq, Repr

/-! ## The provider -/

/-- A call issued to the API client. -/
inductive Call where
  | GetLKEClusterPool
  | GetInstanceIPAddresses (linodeID : Nat)
  | ListDomainRecords
  | DeleteDomainRecord (recordID : Nat)
  | CreateDomainRecord (opts : DomainRecordCreateOptions)
deriving DecidableEq, Repr

/-- The state of the provider as far as the program can observe or change it. -/
structure Cloud where
  /-- The node pool named by the options `ClusterID` and `ClusterPoolID`. -/
  pool : LKEClusterPool
  /-- The address response of every instance. -/
  addresses : Nat → InstanceIPAddressResponse
  /-- The records of the domain named by the option `DomainID`, in listing order. -/
  zone : List DomainRecord
  /-- Every call issued so far, oldest first. -/
  log : List Call
  /-- The outcome of the call number `n` (counted from zero): `some e` when it fails. -/
  fails : Nat → Option Error

/-- Modelled from the spec: the identifier that the provider gives to a new record
(the provider is not part of the repository); an identifier that no record of the
zone carries. -/
def freshID (zone : List DomainRecord) : Nat :=
  (zone.map (fun r => r.ID)).foldr max 0 + 1

/-- Modelled from the spec: the record that a successful `createZoneRecord` with the
options `opts` adds to the zone (the provider is not part of the repository). -/
def newRecord (zone : List DomainRecord) (opts : DomainRecordCreateOptions) : DomainRecord :=
  { ID := freshID zone, Type_ := opts.Type_, Name := opts.Name, Target := opts.Target }

/-- Modelled from the spec: the effect of a successful provider call on the zone (the
provider is not part of the repository).  A delete removes the record with the given
identifier, a create adds a record with a fresh identifier and the requested name, type
and target at the end of the listing, the other calls only read. -/
def Call.effect (zone : List DomainRecord) : Call → List DomainRecord
  | Call.DeleteDomainRecord recordID => zone.filter (fun r => r.ID ≠ recordID)
  | Call.CreateDomainRecord opts => zone ++ [newRecord zone opts]
  | _ => zone

/-- Modelled from the spec: the provider serving one call (the provider is not part of
the repository).  The call is appended to the log and the oracle decides its outcome; a
call that succeeds has its effect on the zone, a call that fails has none. -/
def Cloud.issue (w : Cloud) (c : Call) : Option Error × Cloud :=
  match w.fails w.log.length with
  | some err => (some err, { w with log := w.log ++ [c] })
  | none => (none, { w with log := w.log ++ [c], zone := Call.effect w.zone c })

/-- The call `lc.GetLKEClusterPool(ctx, options.ClusterID, options.ClusterPoolID)`. -/
def GetLKEClusterPool (w : Cloud) : Except Error LKEClusterPool × Cloud :=
  match w.issue Call.GetLKEClusterPool with
  | (some err, w1) => (Except.error err, w1)
  | (none, w1) => (Except.ok w1.pool, w1)

/-- The call `lc.GetInstanceIPAddresses(ctx, linodeID)`. -/
def GetInstanceIPAddresses (linodeID : Nat) (w : Cloud) :
    Except Error InstanceIPAddressResponse × Cloud :=
  match w.issue (Call.GetInstanceIPAddresses linodeID) with
  | (some err, w1) => (Except.error err, w1)
  | (none, w1) => (Except.ok (w1.addresses linodeID), w1)

/-- The call `lc.ListDomainRecords(ctx, options.DomainID, nil)`. -/
def ListDomainRecords (w : Cloud) : Except Error (List DomainRecord) × Cloud :=
  match w.issue Call.ListDomainRecords with
  | (some err, w1) => (Except.error err, w1)
  | (none, w1) => (Except.ok w1.zone, w1)

/-- The call `lc.DeleteDomainRecord(ctx, options.DomainID, recordID)`. -/
def DeleteDomainRecord (recordID : Nat) (w : Cloud) : Option Error × Cloud :=
  w.issue (Call.DeleteDomainRecord recordID)

/-- The call `lc.CreateDomainRecord(ctx, options.DomainID, opts)`.  The program discards
the record that the call returns, so only the error is kept. -/
def CreateDomainRecord (opts : DomainRecordCreateOptions) (w : Cloud) : Option Error × Cloud :=
  w.issue (Call.CreateDomainRecord opts)

/-! ## `getIPs` -/

/-- The function `sort.Strings`: the sorted permutation of its argument. -/
def sortStrings (xs : List String) : List String :=
  xs.insertionSort (fun a b => a.data ≤ b.data)

/-- The inner loop `for _, ip := range ips.IPv4.Public { ipsv4 = append(ipsv4, ip.Address) }`. -/
def appendPublic (ipsv4 : List String) : List InstanceIP → List String
  | [] => ipsv4
  | ip :: rest => appendPublic (ipsv4 ++ [ip.Address]) rest

/-- The loop `for _, l := range pool.Linodes` of `getIPs` (lines 76-87), started with the
accumulators `ipsv4` and `ipsv6`.  `Except.error` is the early `return nil, nil, err`. -/
def getIPsLoop : List LKEClusterPoolLinode → List String → List String → Cloud →
    Except Error (List String × List String) × Cloud
  | [], ipsv4, ipsv6, w => (Except.ok (ipsv4, ipsv6), w)
  | l :: rest, ipsv4, ipsv6, w =>
    match GetInstanceIPAddresses l.InstanceID w with
    | (Except.error err, w1) => (Except.error err, w1)
    | (Except.ok ips, w1) =>
      getIPsLoop rest (appendPublic ipsv4 ips.IPv4.Public)
        (if ips.IPv6.SLAAC.Public then ipsv6 ++ [ips.IPv6.SLAAC.Address] else ipsv6) w1

/-- The function `getIPs` (lines 67-91). -/
def getIPs (w : Cloud) : (List String × List String × Option Error) × Cloud :=
  match GetLKEClusterPool w with
  | (Except.error err, w1) => (([], [], some err), w1)
  | (Except.ok pool, w1) =>
    match getIPsLoop pool.Linodes [] [] w1 with
    | (Except.error err, w2) => (([], [], some err), w2)
    | (Except.ok (ipsv4, ipsv6), w2) => ((sortStrings ipsv4, sortStrings ipsv6, none), w2)

/-! ## `setDNS` -/

/-- A `map[string]struct{}`: the list of its keys. -/
abbrev StringSet := List String

/-- The assignment `m[k] = struct{}{}`. -/
def StringSet.set (m : StringSet) (k : String) : StringSet :=
  if k ∈ m then m else k :: m

/-- The loops of lines 100-105: `for _, ip := range ips { goal[ip] = struct{}{} }`,
started with the map `goal`. -/
def buildGoal (goal : StringSet) : List String → StringSet
  | [] => goal
  | ip :: rest => buildGoal (goal.set ip) rest

/-- One of the two blocks of the body of the loop over the records (lines 109-118 with
`ty = RecordTypeA`, lines 119-128 with `ty = RecordTypeAAAA`): the error of the early
`return err` if any, and the map `exist`. -/
def recordStep (ty : String) (goal : StringSet) (r : DomainRecord) (exist : StringSet)
    (w : Cloud) : (Option Error × StringSet) × Cloud :=
  if r.Type_ = ty ∧ r.Name = "" then
    if ¬ r.Target ∈ goal then
      match DeleteDomainRecord r.ID w with
      | (some err, w1) => ((some err, exist), w1)
      | (none, w1) => ((none, exist), w1)
    else ((none, exist.set r.Target), w)
  else ((none, exist), w)

/-- The loop `for _, r := range records` of `setDNS` (lines 108-129). -/
def recordsLoop (goalv4 goalv6 : StringSet) : List DomainRecord → StringSet → StringSet →
    Cloud → (Option Error × StringSet × StringSet) × Cloud
  | [], existv4, existv6, w => ((none, existv4, existv6), w)
  | r :: rest, existv4, existv6, w =>
    match recordStep RecordTypeA goalv4 r existv4 w with
    | ((some err, existv4), w1) => ((some err, existv4, existv6), w1)
    | ((none, existv4), w1) =>
      match recordStep RecordTypeAAAA goalv6 r existv6 w1 with
      | ((some err, existv6), w2) => ((some err, existv4, existv6), w2)
      | ((none, existv6), w2) => recordsLoop goalv4 goalv6 rest existv4 existv6 w2

/-- One of the two loops creating the missing records (lines 131-142 with
`ty = RecordTypeA`, lines 143-154 with `ty = RecordTypeAAAA`). -/
def createLoop (ty : String) (exist : StringSet) : List String → Cloud → Option Error × Cloud
  | [], w => (none, w)
  | ip :: rest, w =>
    if ¬ ip ∈ exist then
      match CreateDomainRecord { Name := "", Type_ := ty, Target := ip } w with
      | (some err, w1) => (some err, w1)
      | (none, w1) => createLoop ty exist rest w1
    else createLoop ty exist rest w

/-- The function `setDNS` (lines 93-156). -/
def setDNS (ipv4 ipv6 : List String) (w : Cloud) : Option Error × Cloud :=
  match ListDomainRecords w with
  | (Except.error err, w1) => (some err, w1)
  | (Except.ok records, w1) =>
    let goalv4 := buildGoal [] ipv4
    let goalv6 := buildGoal [] ipv6
    match recordsLoop goalv4 goalv6 records [] [] w1 with
    | ((some err, _, _), w2) => (some err, w2)
    | ((none, existv4, existv6), w2) =>
      match createLoop RecordTypeA existv4 ipv4 w2 with
      | (some err, w3) => (some err, w3)
      | (none, w3) => createLoop RecordTypeAAAA existv6 ipv6 w3

/-! ## The polling loop of `main` -/

/-- The function `strings.Join(elems, sep)`. -/
def stringsJoin (elems : List String) (sep : String) : String :=
  sep.intercalate elems

/-- One pass through the body of the `for` loop of `main` (lines 47-63): the value of
`last` after the pass and the state of the provider. -/
def tick (last : String) (w : Cloud) : String × Cloud :=
  match getIPs w with
  | ((_, _, some _), w1) => (last, w1)
  | ((ipv4, ipv6, none), w1) =>
    let new := stringsJoin ipv4 "," ++ "," ++ stringsJoin ipv6 ","
    if new = last then (last, w1)
    else
      let last := new
      match setDNS ipv4 ipv6 w1 with
      | (_, w2) => (last, w2)

/-- The loop of `main` run for as many passes as there are states in the list: the pass
number `i` meets the provider in the state number `i` (the provider may change in any
way between two passes). The result is the value of `last` after the last pass. -/
def mainLoop (last : String) : List Cloud → String
  | [] => last
  | w :: rest => mainLoop (tick last w).1 rest

/-- The program from the start of its loop: `last := ""`, then the passes. -/
def main (ws : List Cloud) : String :=
  mainLoop "" ws

/-! ## Vocabulary of the properties -/

/-- The calls issued between the state `w` and the later state `w1`. -/
def issued (w w1 : Cloud) : List Call :=
  w1.log.drop w.log.length

/-- A call that changes the zone. -/
def Call.isMutation : Call → Bool
  | Call.DeleteDomainRecord _ => true
  | Call.CreateDomainRecord _ => true
  | _ => false

/-- A call that belongs to reconciliation: list, delete or create. -/
def Call.isReconcile : Call → Bool
  | Call.ListDomainRecords => true
  | Call.DeleteDomainRecord _ => true
  | Call.CreateDomainRecord _ => true
  | _ => false

/-- The record is a record of type `ty` at the apex of the zone. -/
def isApex (ty : String) (r : DomainRecord) : Bool :=
  decide (r.Type_ = ty ∧ r.Name = "")

/-- The targets of the apex records of type `ty`, in listing order. -/
def apexTargets (ty : String) (zone : List DomainRecord) : List String :=
  (zone.filter (isApex ty)).map (fun r => r.Target)

/-- The record identifiers of the zone are pairwise distinct. -/
def UniqueIDs (zone : List DomainRecord) : Prop :=
  (zone.map (fun r => r.ID)).Nodup

instance (zone : List DomainRecord) : Decidable (UniqueIDs zone) :=
  List.nodupDecidable (zone.map (fun r : DomainRecord => r.ID))

/-- The record is one that `setDNS` has to remove: an apex `A` record whose target is not
desired, or an apex `AAAA` record whose target is not desired. -/
def isStale (ipv4 ipv6 : List String) (r : DomainRecord) : Bool :=
  (isApex RecordTypeA r && decide (¬ r.Target ∈ ipv4)) ||
    (isApex RecordTypeAAAA r && decide (¬ r.Target ∈ ipv6))

/-- The reference behaviour of a sequence of calls: they are issued in order until one
of them fails; the error of that call, if any, is the result. -/
def runPlan : List Call → Cloud → Option Error × Cloud
  | [], w => (none, w)
  | c :: rest, w =>
    match w.issue c with
    | (some err, w1) => (some err, w1)
    | (none, w1) => runPlan rest w1

/-- The identifiers of the records that `setDNS` has to remove, in listing order. -/
def staleIDs (ipv4 ipv6 : List String) (records : List DomainRecord) : List Nat :=
  (records.filter (isStale ipv4 ipv6)).map (fun r => r.ID)

/-- The deletes that `setDNS` has to issue for the listed records, in listing order. -/
def deletePlan (ipv4 ipv6 : List String) (records : List DomainRecord) : List Call :=
  (staleIDs ipv4 ipv6 records).map Call.DeleteDomainRecord

/-- The options of the creates of type `ty` for the entries of `ips` that are not in
`exist`, in the order of `ips`. -/
def createOptions (ty : String) (exist ips : List String) : List DomainRecordCreateOptions :=
  (ips.filter (fun ip => decide (¬ ip ∈ exist))).map
    (fun ip => { Name := "", Type_ := ty, Target := ip })

/-- The creates of type `ty` for the entries of `ips` that are not in `exist`. -/
def createPlan (ty : String) (exist ips : List String) : List Call :=
  (createOptions ty exist ips).map Call.CreateDomainRecord

/-- The records that the provider adds to the zone when the creates with the given
options succeed one after the other. -/
def createdRecords (zone : List DomainRecord) :
    List DomainRecordCreateOptions → List DomainRecord
  | [] => []
  | opts :: rest =>
    newRecord zone opts :: createdRecords (zone ++ [newRecord zone opts]) rest

/-- The map `exist` after the loop over the records, when the loop runs to its end. -/
def existAfter (ty : String) (goal : StringSet) : List DomainRecord → StringSet → StringSet
  | [], exist => exist
  | r :: rest, exist =>
    existAfter ty goal rest (if isApex ty r ∧ r.Target ∈ goal then exist.set r.Target else exist)

/-- The targets of the apex records of type `ty` that `setDNS` keeps. -/
def keptTargets (ty : String) (ips : List String) (records : List DomainRecord) : List String :=
  (apexTargets ty records).filter (fun t => decide (t ∈ ips))

/-- The mutations of a run of `setDNS` in which every call succeeds: the deletes, then
the `A` creates, then the `AAAA` creates. -/
def mutationPlan (ipv4 ipv6 : List String) (records : List DomainRecord) : List Call :=
  deletePlan ipv4 ipv6 records ++
    (createPlan RecordTypeA (keptTargets RecordTypeA ipv4 records) ipv4 ++
      createPlan RecordTypeAAAA (keptTargets RecordTypeAAAA ipv6 records) ipv6)

/-- The calls of a run of `getIPs` in which every call succeeds. -/
def observePlan (pool : LKEClusterPool) : List Call :=
  Call.GetLKEClusterPool ::
    pool.Linodes.map (fun l => Call.GetInstanceIPAddresses l.InstanceID)

/-- The public IPv4 addresses that the nodes of the pool report, node after node. -/
def reportedIPv4 (w : Cloud) : List String :=
  w.pool.Linodes.flatMap (fun l => (w.addresses l.InstanceID).IPv4.Public.map (fun ip => ip.Address))

/-- The SLAAC addresses of the nodes whose SLAAC address is public, node after node. -/
def reportedIPv6 (w : Cloud) : List String :=
  (w.pool.Linodes.filter (fun l => (w.addresses l.InstanceID).IPv6.SLAAC.Public)).map
    (fun l => (w.addresses l.InstanceID).IPv6.SLAAC.Address)

/-- The record is outside the scope of `setDNS`: not at the apex, or neither `A` nor `AAAA`. -/
def outOfScope (r : DomainRecord) : Bool :=
  decide (r.Name ≠ "" ∨ (r.Type_ ≠ RecordTypeA ∧ r.Type_ ≠ RecordTypeAAAA))

/-- Every call issued between the state `w` and the later state `w1` succeeded. -/
def AllCallsSucceed (w w1 : Cloud) : Prop :=
  ∀ k, w.log.length ≤ k → k < w1.log.length → w.fails k = none

/-- The call concerns the family `ty` of the zone: it deletes an apex record of type
`ty` of the zone, or it creates a record of type `ty`. -/
def Call.inFamily (ty : String) (zone : List DomainRecord) : Call → Bool
  | Call.DeleteDomainRecord recordID =>
    decide (recordID ∈ (zone.filter (isApex ty)).map (fun r => r.ID))
  | Call.CreateDomainRecord opts => decide (opts.Type_ = ty)
  | _ => false

/-- The number of deletes and creates among `calls` that concern the family `ty`. -/
def familyOps (ty : String) (zone : List DomainRecord) (calls : List Call) : Nat :=
  (calls.filter (Call.inFamily ty zone)).length

/-- The number `|E \ D| + |D \ E|` for `E` and `D` taken as sets of strings. -/
def symmDiffCard (E D : List String) : Nat :=
  (E.toFinset \ D.toFinset).card + (D.toFinset \ E.toFinset).card

/-- The fingerprint that `main` computes from a snapshot (the value of `new`). -/
def fingerprint (ipv4 ipv6 : List String) : String :=
  stringsJoin ipv4 "," ++ "," ++ stringsJoin ipv6 ","

/-- The same state of the provider under the oracle that lets every call succeed. -/
def Cloud.withoutFailures (w : Cloud) : Cloud :=
  { w with fails := fun _ => none }

/-- The call is a delete. -/
def Call.isDelete : Call → Bool
  | Call.DeleteDomainRecord _ => true
  | _ => false

/-- The call is a create. -/
def Call.isCreate : Call → Bool
  | Call.CreateDomainRecord _ => true
  | _ => false

/-- The records of type `ty` of the zone, in listing order. -/
def recordsOfType (ty : String) (zone : List DomainRecord) : List DomainRecord :=
  zone.filter (fun r => decide (r.Type_ = ty))

/-- The call concerns the records of type `ty` of the zone: it deletes a record of type
`ty` of the zone, or it creates a record of type `ty`. -/
def Call.forType (ty : String) (zone : List DomainRecord) : Call → Bool
  | Call.DeleteDomainRecord recordID =>
    decide (recordID ∈ (recordsOfType ty zone).map (fun r => r.ID))
  | Call.CreateDomainRecord opts => decide (opts.Type_ = ty)
  | _ => false

/-- The name, type and target of a record, without the identifier that the provider
gave it. -/
def DomainRecord.content (r : DomainRecord) : DomainRecordCreateOptions :=
  { Name := r.Name, Type_ := r.Type_, Target := r.Target }

/-- The deletes for the records `recs` of one type when `D` is the desired sequence of
that type: one for each apex record whose target is not an entry of `D`. -/
def familyDeletes (D : List String) (recs : List DomainRecord) : List Call :=
  (recs.filter (fun r => decide (r.Name = "" ∧ ¬ r.Target ∈ D))).map
    (fun r => Call.DeleteDomainRecord r.ID)

/-- The records among `recs`, the records of one type, that stay when `D` is the desired
sequence of that type. -/
def familyKept (D : List String) (recs : List DomainRecord) : List DomainRecord :=
  recs.filter (fun r => ! decide (r.Name = "" ∧ ¬ r.Target ∈ D))

/-- The options of the creates of type `ty` when `recs` are the records of that type and
`D` is the desired sequence of that type. -/
def familyCreates (ty : String) (D : List String) (recs : List DomainRecord) :
    List DomainRecordCreateOptions :=
  createOptions ty
    (((recs.filter (fun r => decide (r.Name = ""))).map (fun r => r.Target)).filter
      (fun t => decide (t ∈ D))) D

/-- The pieces of a text between its commas, as characters. -/
def splitComma : List Char → List (List Char)
  | [] => [[]]
  | c :: cs =>
    if c = ',' then [] :: splitComma cs
    else
      match splitComma cs with
      | [] => [[c]]
      | t :: ts => (c :: t) :: ts

/-- The characters of the given pieces, each one preceded by a comma. -/
def commaTail : List (List Char) → List Char
  | [] => []
  | s :: rest => ',' :: (s ++ commaTail rest)

/-- The characters of `strings.Join(l, ",")` for the pieces `l`. -/
def joinComma : List (List Char) → List Char
  | [] => []
  | t :: rest => t ++ commaTail rest

/-- The text is a plausible IPv4 entry of a snapshot: not empty, no comma, no colon. -/
def IPv4Entry (s : String) : Prop :=
  s ≠ "" ∧ ¬ ',' ∈ s.data ∧ ¬ ':' ∈ s.data

instance (s : String) : Decidable (IPv4Entry s) :=
  instDecidableAnd

/-- The text is a plausible IPv6 entry of a snapshot: it has a colon and no comma. -/
def IPv6Entry (s : String) : Prop :=
  ':' ∈ s.data ∧ ¬ ',' ∈ s.data

instance (s : String) : Decidable (IPv6Entry s) :=
  instDecidableAnd

/-! ## Concrete states used to exercise the theorems -/

/-- The oracle under which no call fails. -/
def noFailure : Nat → Option Error :=
  fun _ => none

/-- The oracle under which exactly the call number `n` fails. -/
def failAt (n : Nat) : Nat → Option Error :=
  fun k => if k = n then some { msg := "provider error" } else none

/-- A zone with two apex `A` records, a non-apex `A` record, an apex `AAAA` record and a
`TXT` record. -/
def sampleZone : List DomainRecord :=
  [{ ID := 1, Type_ := "A", Name := "", Target := "1.1.1.1" },
   { ID := 2, Type_ := "A", Name := "", Target := "2.2.2.2" },
   { ID := 3, Type_ := "A", Name := "www", Target := "9.9.9.9" },
   { ID := 4, Type_ := "AAAA", Name := "", Target := "::1" },
   { ID := 5, Type_ := "TXT", Name := "", Target := "v=spf1" }]

/-- The address response of the sample nodes: node 7 has two public IPv4 addresses and a
public SLAAC address, every other node has one public IPv4 address and a SLAAC address
that is not public. -/
def sampleAddresses (linodeID : Nat) : InstanceIPAddressResponse :=
  if linodeID = 7 then
    { IPv4 := { Public := [{ Address := "3.3.3.3", Public := true },
                           { Address := "1.1.1.1", Public := true }] },
      IPv6 := { SLAAC := { Address := "::7", Public := true } } }
  else
    { IPv4 := { Public := [{ Address := "2.2.2.2", Public := true }] },
      IPv6 := { SLAAC := { Address := "::8", Public := false } } }

/-- A provider with the nodes 7 and 8 in the pool, the given zone and the given oracle. -/
def sampleCloud (zone : List DomainRecord) (fails : Nat → Option Error) : Cloud :=
  { pool := { Linodes := [{ InstanceID := 7 }, { InstanceID := 8 }] },
    addresses := sampleAddresses,
    zone := zone,
    log := [],
    fails := fails }

/-- A zone whose only record is the apex `A` record with target `5.5.5.5`. -/
def singleZone : List DomainRecord :=
  [{ ID := 1, Type_ := "A", Name := "", Target := "5.5.5.5" }]

/-- A provider whose pool holds the nodes 8 and 9, which report the same public IPv4
address. -/
def twinCloud : Cloud :=
  { pool := { Linodes := [{ InstanceID := 8 }, { InstanceID := 9 }] },
    addresses := sampleAddresses,
    zone := [],
    log := [],
    fails := noFailure }

/-- A zone whose only records are the apex `A` records with the targets `1.1.1.1` and
`2.2.2.2`. -/
def pairZone : List DomainRecord :=
  [{ ID := 1, Type_ := "A", Name := "", Target := "1.1.1.1" },
   { ID := 2, Type_ := "A", Name := "", Target := "2.2.2.2" }]

/-- The provider of `sampleCloud` with the nodes of the pool listed in the other order
and the public IPv4 addresses of node 7 listed in the other order. -/
def shuffledCloud : Cloud :=
  { pool := { Linodes := [{ InstanceID := 8 }, { InstanceID := 7 }] },
    addresses := fun linodeID =>
      if linodeID = 7 then
        { IPv4 := { Public := [{ Address := "1.1.1.1", Public := true },
                               { Address := "3.3.3.3", Public := true }] },
          IPv6 := { SLAAC := { Address := "::7", Public := true } } }
      else sampleAddresses linodeID,
    zone := [],
    log := [],
    fails := noFailure }

/-- A zone with the same `A` records as `sampleZone` and other `AAAA` and other
records. -/
def otherZone : List DomainRecord :=
  [{ ID := 9, Type_ := "MX", Name := "", Target := "mail" },
   { ID := 1, Type_ := "A", Name := "", Target := "1.1.1.1" },
   { ID := 6, Type_ := "AAAA", Name := "", Target := "::9" },
   { ID := 2, Type_ := "A", Name := "", Target := "2.2.2.2" },
   { ID := 3, Type_ := "A", Name := "www", Target := "9.9.9.9" }]

/-! ## Lemmas: the provider and the reference runs -/

/-! ### Calls and plans -/

theorem RecordTypeA_ne_AAAA : RecordTypeA ≠ RecordTypeAAAA := by decide

theorem issue_fails (w : Cloud) (c : Call) : (w.issue c).2.fails = w.fails := by
  unfold Cloud.issue; split <;> rfl

theorem issue_pool (w : Cloud) (c : Call) : (w.issue c).2.pool = w.pool := by
  unfold Cloud.issue; split <;> rfl

theorem issue_addresses (w : Cloud) (c : Call) : (w.issue c).2.addresses = w.addresses := by
  unfold Cloud.issue; split <;> rfl

theorem issue_log (w : Cloud) (c : Call) : (w.issue c).2.log = w.log ++ [c] := by
  unfold Cloud.issue; split <;> rfl

theorem issue_err (w : Cloud) (c : Call) : (w.issue c).1 = w.fails w.log.length := by
  unfold Cloud.issue; split <;> simp_all

theorem issue_zone_ok (w : Cloud) (c : Call) (h : (w.issue c).1 = none) :
    (w.issue c).2.zone = Call.effect w.zone c := by
  unfold Cloud.issue at h ⊢; split <;> simp_all

theorem issue_zone_err (w : Cloud) (c : Call) (e : Error) (h : (w.issue c).1 = some e) :
    (w.issue c).2.zone = w.zone := by
  unfold Cloud.issue at h ⊢; split <;> simp_all

theorem runPlan_cons (c : Call) (cs : List Call) (w : Cloud) :
    runPlan (c :: cs) w =
      if (w.issue c).1 = none then runPlan cs (w.issue c).2 else w.issue c := by
  rcases h : w.issue c with ⟨_ | e, w1⟩ <;> simp [runPlan, h]

theorem runPlan_append (a b : List Call) (w : Cloud) :
    runPlan (a ++ b) w =
      if (runPlan a w).1 = none then runPlan b (runPlan a w).2 else runPlan a w := by
  induction a generalizing w with
  | nil => simp [runPlan]
  | cons c cs ih =>
    rw [List.cons_append, runPlan_cons, runPlan_cons]
    by_cases h : (w.issue c).1 = none
    · simp [h, ih]
    · simp [h]

/-! ### `setDNS` follows its plan -/

theorem mem_set (m : StringSet) (k t : String) : t ∈ m.set k ↔ t = k ∨ t ∈ m := by
  unfold StringSet.set
  split
  · constructor
    · exact Or.inr
    · rintro (h | h)
      · subst h; assumption
      · exact h
  · simp

theorem mem_buildGoal (ips : List String) (goal : StringSet) (t : String) :
    t ∈ buildGoal goal ips ↔ t ∈ goal ∨ t ∈ ips := by
  induction ips generalizing goal with
  | nil => simp [buildGoal]
  | cons ip rest ih =>
    simp only [buildGoal, ih, mem_set, List.mem_cons]
    tauto

theorem isApex_not_both (r : DomainRecord) (h : isApex RecordTypeA r = true) :
    isApex RecordTypeAAAA r = false := by
  simp only [isApex, decide_eq_true_eq, decide_eq_false_iff_not] at h ⊢
  rintro ⟨h2, -⟩
  exact RecordTypeA_ne_AAAA (h.1.symm.trans h2)

theorem recordStep_eq (ty : String) (goal : StringSet) (r : DomainRecord) (exist : StringSet)
    (w : Cloud) :
    recordStep ty goal r exist w =
      if isApex ty r = true then
        if r.Target ∈ goal then ((none, exist.set r.Target), w)
        else (((w.issue (Call.DeleteDomainRecord r.ID)).1, exist),
          (w.issue (Call.DeleteDomainRecord r.ID)).2)
      else ((none, exist), w) := by
  unfold recordStep DeleteDomainRecord
  by_cases h : r.Type_ = ty ∧ r.Name = ""
  · by_cases hg : r.Target ∈ goal
    · simp [isApex, h, hg]
    · rcases hi : w.issue (Call.DeleteDomainRecord r.ID) with ⟨_ | e, w1⟩ <;>
        simp [isApex, h, hg]
  · simp [isApex, h]

theorem recordsLoop_eq (g4 g6 : StringSet) (rs : List DomainRecord) (e4 e6 : StringSet)
    (w : Cloud) :
    (recordsLoop g4 g6 rs e4 e6 w).1.1 = (runPlan (deletePlan g4 g6 rs) w).1 ∧
    (recordsLoop g4 g6 rs e4 e6 w).2 = (runPlan (deletePlan g4 g6 rs) w).2 ∧
    ((recordsLoop g4 g6 rs e4 e6 w).1.1 = none →
      (recordsLoop g4 g6 rs e4 e6 w).1.2 =
        (existAfter RecordTypeA g4 rs e4, existAfter RecordTypeAAAA g6 rs e6)) := by
  induction rs generalizing e4 e6 w with
  | nil => simp [recordsLoop, deletePlan, runPlan, existAfter]
  | cons r rest ih =>
    by_cases hA : isApex RecordTypeA r = true
    · have hB := isApex_not_both r hA
      by_cases hg : r.Target ∈ g4
      · have hs : isStale g4 g6 r = false := by simp [isStale, hA, hB, hg]
        simp only [recordsLoop, recordStep_eq, hA, hB, hg, if_true, deletePlan, staleIDs, List.filter_cons,
          hs, existAfter]
        simpa [deletePlan, staleIDs] using ih (e4.set r.Target) e6 w
      · have hs : isStale g4 g6 r = true := by simp [isStale, hA, hg]
        simp only [recordsLoop, recordStep_eq, hA, hB, hg, if_true, if_false, deletePlan, staleIDs,
          List.filter_cons, hs, existAfter, List.map_cons, runPlan_cons]
        rcases hi : w.issue (Call.DeleteDomainRecord r.ID) with ⟨_ | e, w1⟩
        · simpa [deletePlan, staleIDs, hB] using ih e4 e6 w1
        · simp
    · by_cases hB : isApex RecordTypeAAAA r = true
      · by_cases hg : r.Target ∈ g6
        · have hs : isStale g4 g6 r = false := by simp [isStale, hA, hB, hg]
          simp only [recordsLoop, recordStep_eq, hA, hB, hg, if_true, deletePlan, staleIDs,
            List.filter_cons, hs, existAfter]
          simpa [deletePlan, staleIDs] using ih e4 (e6.set r.Target) w
        · have hs : isStale g4 g6 r = true := by simp [isStale, hB, hg]
          simp only [recordsLoop, recordStep_eq, hA, hB, hg, if_true, if_false, deletePlan, staleIDs,
            List.filter_cons, hs, existAfter, List.map_cons, runPlan_cons]
          rcases hi : w.issue (Call.DeleteDomainRecord r.ID) with ⟨_ | e, w1⟩
          · simpa [deletePlan, staleIDs, hA, hi] using ih e4 e6 w1
          · simp [hi]
      · have hs : isStale g4 g6 r = false := by simp [isStale, hA, hB]
        simp only [recordsLoop, recordStep_eq, hA, hB, deletePlan, staleIDs, List.filter_cons, hs,
          existAfter]
        simpa [deletePlan, staleIDs] using ih e4 e6 w

theorem createLoop_eq (ty : String) (exist : StringSet) (ips : List String) (w : Cloud) :
    createLoop ty exist ips w = runPlan (createPlan ty exist ips) w := by
  induction ips generalizing w with
  | nil => simp [createLoop, createPlan, createOptions, runPlan]
  | cons ip rest ih =>
    by_cases h : ip ∈ exist
    · simp only [createLoop, h, not_true_eq_false, if_false, createPlan, createOptions, List.filter_cons,
        decide_False]
      simpa [createPlan, createOptions] using ih w
    · simp only [createLoop, h, not_false_eq_true, if_true, createPlan, createOptions, List.filter_cons,
        decide_True, List.map_cons, runPlan_cons, CreateDomainRecord]
      rcases hi : w.issue (Call.CreateDomainRecord { Name := "", Type_ := ty, Target := ip })
        with ⟨_ | e, w1⟩
      · simpa [createPlan, createOptions] using ih w1
      · simp

theorem mem_apexTargets (ty : String) (zone : List DomainRecord) (t : String) :
    t ∈ apexTargets ty zone ↔ ∃ r ∈ zone, isApex ty r = true ∧ r.Target = t := by
  simp [apexTargets, and_assoc]

theorem mem_existAfter (ty : String) (goal : StringSet) (rs : List DomainRecord)
    (exist : StringSet) (t : String) :
    t ∈ existAfter ty goal rs exist ↔ t ∈ exist ∨ (t ∈ apexTargets ty rs ∧ t ∈ goal) := by
  induction rs generalizing exist with
  | nil => simp [existAfter, apexTargets]
  | cons r rest ih =>
    rw [existAfter, ih]
    by_cases hA : isApex ty r = true
    · by_cases hg : r.Target ∈ goal
      · simp only [hA, hg, and_self, if_true, mem_set, apexTargets, List.filter_cons,
          List.map_cons, List.mem_cons]
        constructor
        · rintro ((h | h) | h)
          · subst h; exact Or.inr ⟨Or.inl rfl, hg⟩
          · exact Or.inl h
          · exact Or.inr ⟨Or.inr h.1, h.2⟩
        · rintro (h | ⟨h | h, h2⟩)
          · exact Or.inl (Or.inr h)
          · exact Or.inl (Or.inl h)
          · exact Or.inr ⟨h, h2⟩
      · simp only [hA, hg, and_false, if_false, apexTargets, List.filter_cons, List.map_cons,
          List.mem_cons, if_true]
        constructor
        · rintro (h | h)
          · exact Or.inl h
          · exact Or.inr ⟨Or.inr h.1, h.2⟩
        · rintro (h | ⟨h | h, h2⟩)
          · exact Or.inl h
          · subst h; exact absurd h2 hg
          · exact Or.inr ⟨h, h2⟩
    · simp [hA, apexTargets, List.filter_cons]

theorem mem_keptTargets (ty : String) (ips : List String) (rs : List DomainRecord) (t : String) :
    t ∈ keptTargets ty ips rs ↔ t ∈ apexTargets ty rs ∧ t ∈ ips := by
  simp [keptTargets]

theorem isStale_congr (a4 a6 b4 b6 : List String) (h4 : ∀ t, t ∈ a4 ↔ t ∈ b4)
    (h6 : ∀ t, t ∈ a6 ↔ t ∈ b6) : isStale a4 a6 = isStale b4 b6 := by
  funext r
  simp [isStale, h4, h6]

theorem createPlan_congr (ty : String) (a b ips : List String) (h : ∀ t, t ∈ a ↔ t ∈ b) :
    createPlan ty a ips = createPlan ty b ips := by
  simp [createPlan, createOptions, h]

theorem ListDomainRecords_eq (w : Cloud) :
    ListDomainRecords w =
      (match (w.issue Call.ListDomainRecords).1 with
        | some err => Except.error err
        | none => Except.ok w.zone, (w.issue Call.ListDomainRecords).2) := by
  unfold ListDomainRecords Cloud.issue
  cases h : w.fails w.log.length <;> simp [Call.effect]

/-- `setDNS` issues the list call and then the mutation plan computed from the listed
records, stopping at the first call that fails. -/
theorem setDNS_eq_runPlan (ipv4 ipv6 : List String) (w : Cloud) :
    setDNS ipv4 ipv6 w =
      runPlan (Call.ListDomainRecords :: mutationPlan ipv4 ipv6 w.zone) w := by
  unfold setDNS
  rw [ListDomainRecords_eq, runPlan_cons]
  rcases hi : w.issue Call.ListDomainRecords with ⟨_ | e, w1⟩
  · simp only [if_true]
    obtain ⟨h1, h2, h3⟩ := recordsLoop_eq (buildGoal [] ipv4) (buildGoal [] ipv6) w.zone [] [] w1
    have hd : deletePlan (buildGoal [] ipv4) (buildGoal [] ipv6) w.zone =
        deletePlan ipv4 ipv6 w.zone := by
      unfold deletePlan staleIDs
      rw [isStale_congr _ _ ipv4 ipv6 (by simp [mem_buildGoal]) (by simp [mem_buildGoal])]
    rw [hd] at h1 h2
    rw [mutationPlan, runPlan_append, runPlan_append, ← h1, ← h2]
    rcases hr : recordsLoop (buildGoal [] ipv4) (buildGoal [] ipv6) w.zone [] [] w1
      with ⟨⟨_ | e, x4, x6⟩, w2⟩
    · rw [hr] at h3
      have h3 := h3 rfl
      simp only [Prod.mk.injEq] at h3
      obtain ⟨hx4, hx6⟩ := h3
      have c4 : createPlan RecordTypeA x4 ipv4 =
          createPlan RecordTypeA (keptTargets RecordTypeA ipv4 w.zone) ipv4 := by
        apply createPlan_congr
        intro t
        rw [hx4, mem_existAfter, mem_keptTargets, mem_buildGoal]
        simp
      have c6 : createPlan RecordTypeAAAA x6 ipv6 =
          createPlan RecordTypeAAAA (keptTargets RecordTypeAAAA ipv6 w.zone) ipv6 := by
        apply createPlan_congr
        intro t
        rw [hx6, mem_existAfter, mem_keptTargets, mem_buildGoal]
        simp
      simp only [if_true, createLoop_eq, c4, c6]
      rcases hc : runPlan (createPlan RecordTypeA (keptTargets RecordTypeA ipv4 w.zone) ipv4) w2
        with ⟨_ | e, w3⟩ <;> simp
    · rw [hr] at h1 h2
      simp only [reduceCtorEq, if_false]
      exact Prod.ext h1 h2
  · simp

/-! ### The shape of a run -/

theorem runPlan_fails (cs : List Call) (w : Cloud) : (runPlan cs w).2.fails = w.fails := by
  induction cs generalizing w with
  | nil => rfl
  | cons c cs ih =>
    rw [runPlan_cons]
    split
    · rw [ih, issue_fails]
    · exact issue_fails w c

theorem runPlan_pool (cs : List Call) (w : Cloud) : (runPlan cs w).2.pool = w.pool := by
  induction cs generalizing w with
  | nil => rfl
  | cons c cs ih =>
    rw [runPlan_cons]
    split
    · rw [ih, issue_pool]
    · exact issue_pool w c

theorem runPlan_addresses (cs : List Call) (w : Cloud) :
    (runPlan cs w).2.addresses = w.addresses := by
  induction cs generalizing w with
  | nil => rfl
  | cons c cs ih =>
    rw [runPlan_cons]
    split
    · rw [ih, issue_addresses]
    · exact issue_addresses w c

/-- The shape of every run of a plan: the first `m` calls succeed and have their effect;
either the plan is then finished, or the next call fails and ends the run. -/
theorem runPlan_shape (cs : List Call) (w : Cloud) :
    ∃ m, m ≤ cs.length ∧ (∀ k, k < m → w.fails (w.log.length + k) = none) ∧
      (runPlan cs w).2.zone = (cs.take m).foldl Call.effect w.zone ∧
      (((runPlan cs w).1 = none ∧ m = cs.length ∧ (runPlan cs w).2.log = w.log ++ cs) ∨
        (∃ e, (runPlan cs w).1 = some e ∧ w.fails (w.log.length + m) = some e ∧
          m < cs.length ∧ (runPlan cs w).2.log = w.log ++ cs.take (m + 1))) := by
  induction cs generalizing w with
  | nil => exact ⟨0, le_refl _, by simp, rfl, Or.inl ⟨rfl, rfl, by simp [runPlan]⟩⟩
  | cons c cs ih =>
    rw [runPlan_cons]
    by_cases h : (w.issue c).1 = none
    · obtain ⟨m, hm, hk, hz, hr⟩ := ih (w.issue c).2
      have hf : w.fails w.log.length = none := by rw [← issue_err w c]; exact h
      simp only [issue_fails, issue_log, List.length_append, List.length_singleton] at hk hr
      refine ⟨m + 1, by simpa using hm, ?_, ?_, ?_⟩
      · intro k hk1
        cases k with
        | zero => simpa using hf
        | succ k =>
          have := hk k (by omega)
          rw [← this]; congr 1; omega
      · simp only [h, if_true, hz, issue_zone_ok w c h, List.take_succ_cons, List.foldl_cons]
      · simp only [h, if_true]
        rcases hr with ⟨h1, h2, h3⟩ | ⟨e, h1, h2, h3, h4⟩
        · exact Or.inl ⟨h1, by simp [h2], by simp [h3]⟩
        · refine Or.inr ⟨e, h1, ?_, by simpa using h3, by simp [h4]⟩
          rw [← h2]; congr 1; omega
    · obtain ⟨e, he⟩ := Option.ne_none_iff_exists'.mp h
      refine ⟨0, by simp, by simp, ?_, Or.inr ⟨e, ?_, ?_, by simp, ?_⟩⟩
      · simp [h, issue_zone_err w c e he]
      · simp [h, he]
      · rw [Nat.add_zero, ← issue_err w c]; exact he
      · simp [h, issue_log]

theorem runPlan_issued (cs : List Call) (w : Cloud) :
    ∃ n, n ≤ cs.length ∧ issued w (runPlan cs w).2 = cs.take n ∧
      ((runPlan cs w).1 = none → n = cs.length) := by
  obtain ⟨m, hm, -, -, hr⟩ := runPlan_shape cs w
  rcases hr with ⟨h1, h2, h3⟩ | ⟨e, h1, h2, h3, h4⟩
  · exact ⟨cs.length, le_refl _, by simp [issued, h3], fun _ => rfl⟩
  · exact ⟨m + 1, h3, by simp [issued, h4], fun h => by simp [h1] at h⟩

theorem runPlan_no_failure (cs : List Call) (w : Cloud) (h : ∀ n, w.fails n = none) :
    (runPlan cs w).1 = none := by
  obtain ⟨m, -, -, -, hr⟩ := runPlan_shape cs w
  rcases hr with ⟨h1, -⟩ | ⟨e, -, h2, -⟩
  · exact h1
  · rw [h] at h2; cases h2

theorem runPlan_none (cs : List Call) (w : Cloud) (h : (runPlan cs w).1 = none) :
    (runPlan cs w).2.zone = cs.foldl Call.effect w.zone ∧
      issued w (runPlan cs w).2 = cs := by
  obtain ⟨m, -, -, hz, hr⟩ := runPlan_shape cs w
  rcases hr with ⟨h1, h2, h3⟩ | ⟨e, h1, -⟩
  · subst h2
    exact ⟨by simpa using hz, by simp [issued, h3]⟩
  · rw [h] at h1; cases h1

/-- A call that was issued and failed is the last call of the run, and its error is the
result of the run. -/
theorem runPlan_failed_call (cs : List Call) (w : Cloud) (k : Nat) (e : Error)
    (h1 : w.log.length ≤ k) (h2 : k < (runPlan cs w).2.log.length) (h3 : w.fails k = some e) :
    (runPlan cs w).1 = some e ∧ (runPlan cs w).2.log.length = k + 1 := by
  obtain ⟨m, hm, hk, -, hr⟩ := runPlan_shape cs w
  rcases hr with ⟨-, h5, h6⟩ | ⟨e1, h4, h5, h6, h7⟩
  · rw [h6, List.length_append] at h2
    have := hk (k - w.log.length) (by omega)
    rw [show w.log.length + (k - w.log.length) = k by omega, h3] at this
    cases this
  · rw [h7, List.length_append, List.length_take] at h2
    have hkm : k = w.log.length + m := by
      by_contra hne
      have := hk (k - w.log.length) (by omega)
      rw [show w.log.length + (k - w.log.length) = k by omega, h3] at this
      cases this
    subst hkm
    rw [h3] at h5
    cases h5
    refine ⟨h4, ?_⟩
    rw [h7, List.length_append, List.length_take]
    omega

/-! ### The zone after deletes and creates -/

theorem foldl_effect_deletes (ids : List Nat) (zone : List DomainRecord) :
    (ids.map Call.DeleteDomainRecord).foldl Call.effect zone =
      zone.filter (fun r => decide (¬ r.ID ∈ ids)) := by
  induction ids generalizing zone with
  | nil => simp
  | cons i rest ih =>
    simp only [List.map_cons, List.foldl_cons, Call.effect, ih, List.filter_filter]
    apply List.filter_congr
    intro r _
    simp [Bool.and_comm]

theorem foldl_effect_creates (os : List DomainRecordCreateOptions) (zone : List DomainRecord) :
    (os.map Call.CreateDomainRecord).foldl Call.effect zone = zone ++ createdRecords zone os := by
  induction os generalizing zone with
  | nil => simp [createdRecords]
  | cons o rest ih =>
    simp only [List.map_cons, List.foldl_cons, Call.effect, ih, createdRecords,
      List.append_assoc, List.singleton_append]

theorem createdRecords_map (os : List DomainRecordCreateOptions) (zone : List DomainRecord) :
    (createdRecords zone os).map
      (fun r => ({ Name := r.Name, Type_ := r.Type_, Target := r.Target } :
        DomainRecordCreateOptions)) = os := by
  induction os generalizing zone with
  | nil => rfl
  | cons o rest ih => simp [createdRecords, newRecord, ih]

theorem mem_createdRecords (os : List DomainRecordCreateOptions) (zone : List DomainRecord)
    (r : DomainRecord) (h : r ∈ createdRecords zone os) :
    ({ Name := r.Name, Type_ := r.Type_, Target := r.Target } : DomainRecordCreateOptions) ∈ os := by
  have := createdRecords_map os zone
  rw [← this]
  exact List.mem_map.mpr ⟨r, h, rfl⟩

/-- With pairwise distinct identifiers, a record of the zone carries the identifier of a
record selected by `p` only if `p` selects it. -/
theorem id_mem_filter_of_unique (zone : List DomainRecord) (hu : UniqueIDs zone)
    (p : DomainRecord → Bool) (r : DomainRecord) (hr : r ∈ zone)
    (h : r.ID ∈ (zone.filter p).map (fun r => r.ID)) : p r = true := by
  obtain ⟨r2, h2, h3⟩ := List.mem_map.mp h
  obtain ⟨h4, h5⟩ := List.mem_filter.mp h2
  have : r2 = r := List.inj_on_of_nodup_map hu h4 hr h3
  rw [← this]; exact h5

theorem filter_staleIDs (ipv4 ipv6 : List String) (zone : List DomainRecord)
    (hu : UniqueIDs zone) :
    zone.filter (fun r => decide (¬ r.ID ∈ staleIDs ipv4 ipv6 zone)) =
      zone.filter (fun r => ! isStale ipv4 ipv6 r) := by
  apply List.filter_congr
  intro r hr
  by_cases hs : isStale ipv4 ipv6 r = true
  · have : r.ID ∈ staleIDs ipv4 ipv6 zone :=
      List.mem_map.mpr ⟨r, List.mem_filter.mpr ⟨hr, hs⟩, rfl⟩
    simp [hs, this]
  · have : ¬ r.ID ∈ staleIDs ipv4 ipv6 zone := fun h =>
      hs (id_mem_filter_of_unique zone hu _ r hr h)
    simp [hs, this]

theorem apexTargets_append (ty : String) (a b : List DomainRecord) :
    apexTargets ty (a ++ b) = apexTargets ty a ++ apexTargets ty b := by
  simp [apexTargets]

theorem apexTargets_eq_options (ty : String) (rs : List DomainRecord) :
    apexTargets ty rs =
      ((rs.map (fun r => ({ Name := r.Name, Type_ := r.Type_, Target := r.Target } :
        DomainRecordCreateOptions))).filter
          (fun o => decide (o.Type_ = ty ∧ o.Name = ""))).map (fun o => o.Target) := by
  have h : isApex ty = fun r => decide (r.Type_ = ty) && decide (r.Name = "") := by
    funext r; simp [isApex]
  simp [apexTargets, List.filter_map, Function.comp_def, h]

theorem apexTargets_createdRecords (ty : String) (os : List DomainRecordCreateOptions)
    (zone : List DomainRecord) :
    apexTargets ty (createdRecords zone os) =
      (os.filter (fun o => decide (o.Type_ = ty ∧ o.Name = ""))).map (fun o => o.Target) := by
  rw [apexTargets_eq_options, createdRecords_map]

theorem createOptions_filter_same (ty : String) (exist ips : List String) :
    ((createOptions ty exist ips).filter (fun o => decide (o.Type_ = ty ∧ o.Name = ""))).map
      (fun o => o.Target) = ips.filter (fun ip => decide (¬ ip ∈ exist)) := by
  simp [createOptions, List.filter_map, Function.comp_def]

theorem createOptions_filter_other (ty ty2 : String) (h : ty2 ≠ ty) (exist ips : List String) :
    (createOptions ty2 exist ips).filter (fun o => decide (o.Type_ = ty ∧ o.Name = "")) = [] := by
  simp [createOptions, List.filter_map, Function.comp_def, h]

theorem apexTargets_filter_not_stale_A (ipv4 ipv6 : List String) (zone : List DomainRecord) :
    apexTargets RecordTypeA (zone.filter (fun r => ! isStale ipv4 ipv6 r)) =
      keptTargets RecordTypeA ipv4 zone := by
  unfold apexTargets keptTargets apexTargets
  rw [List.filter_filter, List.filter_map, List.filter_filter]
  congr 1
  apply List.filter_congr
  intro r _
  by_cases hA : isApex RecordTypeA r = true
  · have hB := isApex_not_both r hA
    simp [isStale, hA, hB]
  · simp [hA]

theorem apexTargets_filter_not_stale_AAAA (ipv4 ipv6 : List String) (zone : List DomainRecord) :
    apexTargets RecordTypeAAAA (zone.filter (fun r => ! isStale ipv4 ipv6 r)) =
      keptTargets RecordTypeAAAA ipv6 zone := by
  unfold apexTargets keptTargets apexTargets
  rw [List.filter_filter, List.filter_map, List.filter_filter]
  congr 1
  apply List.filter_congr
  intro r _
  by_cases hB : isApex RecordTypeAAAA r = true
  · have hA : isApex RecordTypeA r = false := by
      cases h : isApex RecordTypeA r
      · rfl
      · rw [isApex_not_both r h] at hB; cases hB
    simp [isStale, hA, hB]
  · simp [hB]

/-- The zone after a run of `setDNS` in which no call failed. -/
theorem setDNS_success (ipv4 ipv6 : List String) (w : Cloud)
    (hok : (setDNS ipv4 ipv6 w).1 = none) :
    (setDNS ipv4 ipv6 w).2.zone =
      w.zone.filter (fun r => decide (¬ r.ID ∈ staleIDs ipv4 ipv6 w.zone)) ++
        createdRecords (w.zone.filter (fun r => decide (¬ r.ID ∈ staleIDs ipv4 ipv6 w.zone)))
          (createOptions RecordTypeA (keptTargets RecordTypeA ipv4 w.zone) ipv4 ++
            createOptions RecordTypeAAAA (keptTargets RecordTypeAAAA ipv6 w.zone) ipv6) ∧
    issued w (setDNS ipv4 ipv6 w).2 =
      Call.ListDomainRecords :: mutationPlan ipv4 ipv6 w.zone := by
  rw [setDNS_eq_runPlan] at hok ⊢
  obtain ⟨hz, hi⟩ := runPlan_none _ _ hok
  refine ⟨?_, hi⟩
  rw [hz, List.foldl_cons, mutationPlan, List.foldl_append, deletePlan, foldl_effect_deletes,
    createPlan, createPlan, ← List.map_append, foldl_effect_creates]
  rfl

/-- The apex targets of both families after a run of `setDNS` in which no call failed:
the kept targets in listing order, then the created ones in the order of the desired
sequence. -/
theorem setDNS_success_apexTargets (ipv4 ipv6 : List String) (w : Cloud)
    (hu : UniqueIDs w.zone) (hok : (setDNS ipv4 ipv6 w).1 = none) :
    apexTargets RecordTypeA (setDNS ipv4 ipv6 w).2.zone =
      keptTargets RecordTypeA ipv4 w.zone ++
        ipv4.filter (fun ip => decide (¬ ip ∈ keptTargets RecordTypeA ipv4 w.zone)) ∧
    apexTargets RecordTypeAAAA (setDNS ipv4 ipv6 w).2.zone =
      keptTargets RecordTypeAAAA ipv6 w.zone ++
        ipv6.filter (fun ip => decide (¬ ip ∈ keptTargets RecordTypeAAAA ipv6 w.zone)) := by
  obtain ⟨hz, -⟩ := setDNS_success ipv4 ipv6 w hok
  rw [hz, filter_staleIDs ipv4 ipv6 w.zone hu]
  constructor
  · rw [apexTargets_append, apexTargets_filter_not_stale_A, apexTargets_createdRecords,
      List.filter_append, List.map_append, createOptions_filter_same,
      createOptions_filter_other _ _ (Ne.symm RecordTypeA_ne_AAAA)]
    simp
  · rw [apexTargets_append, apexTargets_filter_not_stale_AAAA, apexTargets_createdRecords,
      List.filter_append, List.map_append, createOptions_filter_same,
      createOptions_filter_other _ _ RecordTypeA_ne_AAAA]
    simp

theorem setDNS_no_failure (ipv4 ipv6 : List String) (w : Cloud) (h : ∀ n, w.fails n = none) :
    (setDNS ipv4 ipv6 w).1 = none := by
  rw [setDNS_eq_runPlan]; exact runPlan_no_failure _ _ h

theorem mem_kept_or_created (ty : String) (ips : List String) (zone : List DomainRecord)
    (t : String) :
    t ∈ keptTargets ty ips zone ++
        ips.filter (fun ip => decide (¬ ip ∈ keptTargets ty ips zone)) ↔ t ∈ ips := by
  simp only [List.mem_append, List.mem_filter, decide_eq_true_eq, mem_keptTargets]
  tauto

/-! ## Reconciliation: convergence and idempotence -/

theorem setDNS_ok_of_allCallsSucceed (ipv4 ipv6 : List String) (w : Cloud)
    (h : AllCallsSucceed w (setDNS ipv4 ipv6 w).2) : (setDNS ipv4 ipv6 w).1 = none := by
  rw [setDNS_eq_runPlan] at h ⊢
  obtain ⟨m, -, -, -, hr⟩ := runPlan_shape (Call.ListDomainRecords :: mutationPlan ipv4 ipv6 w.zone) w
  rcases hr with ⟨h1, -⟩ | ⟨e, -, h2, h3, h4⟩
  · exact h1
  · have := h (w.log.length + m) (by omega) (by
      rw [h4, List.length_append, List.length_take]; omega)
    rw [this] at h2; cases h2

/-- C1 (convergence): on a zone with pairwise distinct record identifiers, when every
call that `setDNS` issues succeeds, `setDNS` returns no error and afterwards the targets
of the apex `A` records are exactly the entries of `ipv4` and the targets of the apex
`AAAA` records are exactly the entries of `ipv6`, whatever the zone held before. -/
theorem setDNS_converges (ipv4 ipv6 : List String) (w : Cloud) (hu : UniqueIDs w.zone)
    (hok : AllCallsSucceed w (setDNS ipv4 ipv6 w).2) :
    (setDNS ipv4 ipv6 w).1 = none ∧
    (∀ t, t ∈ apexTargets RecordTypeA (setDNS ipv4 ipv6 w).2.zone ↔ t ∈ ipv4) ∧
    (∀ t, t ∈ apexTargets RecordTypeAAAA (setDNS ipv4 ipv6 w).2.zone ↔ t ∈ ipv6) := by
  have h0 := setDNS_ok_of_allCallsSucceed ipv4 ipv6 w hok
  obtain ⟨h4, h6⟩ := setDNS_success_apexTargets ipv4 ipv6 w hu h0
  refine ⟨h0, ?_, ?_⟩
  · intro t; rw [h4]; exact mem_kept_or_created _ _ _ t
  · intro t; rw [h6]; exact mem_kept_or_created _ _ _ t

theorem setDNS_converges_witness :
    UniqueIDs (sampleCloud sampleZone noFailure).zone ∧
    AllCallsSucceed (sampleCloud sampleZone noFailure)
      (setDNS ["1.1.1.1", "3.3.3.3"] ["::7"] (sampleCloud sampleZone noFailure)).2 ∧
    (∀ t, t ∈ apexTargets RecordTypeA
      (setDNS ["1.1.1.1", "3.3.3.3"] ["::7"] (sampleCloud sampleZone noFailure)).2.zone ↔
        t ∈ ["1.1.1.1", "3.3.3.3"]) :=
  ⟨by decide, fun _ _ _ => rfl,
    (setDNS_converges ["1.1.1.1", "3.3.3.3"] ["::7"] (sampleCloud sampleZone noFailure)
      (by decide) (fun _ _ _ => rfl)).2.1⟩

theorem deletePlan_nil_of_converged (ipv4 ipv6 : List String) (zone : List DomainRecord)
    (h4 : ∀ t, t ∈ apexTargets RecordTypeA zone → t ∈ ipv4)
    (h6 : ∀ t, t ∈ apexTargets RecordTypeAAAA zone → t ∈ ipv6) :
    deletePlan ipv4 ipv6 zone = [] := by
  have : zone.filter (isStale ipv4 ipv6) = [] := by
    rw [List.filter_eq_nil_iff]
    intro r hr hs
    simp only [isStale, Bool.or_eq_true, Bool.and_eq_true, decide_eq_true_eq] at hs
    rcases hs with ⟨ha, hn⟩ | ⟨ha, hn⟩
    · exact hn (h4 _ ((mem_apexTargets _ _ _).mpr ⟨r, hr, ha, rfl⟩))
    · exact hn (h6 _ ((mem_apexTargets _ _ _).mpr ⟨r, hr, ha, rfl⟩))
  rw [deletePlan, staleIDs, this]
  rfl

theorem createPlan_nil_of_converged (ty : String) (ips : List String) (zone : List DomainRecord)
    (h : ∀ t, t ∈ ips → t ∈ apexTargets ty zone) :
    createPlan ty (keptTargets ty ips zone) ips = [] := by
  have : ips.filter (fun ip => decide (¬ ip ∈ keptTargets ty ips zone)) = [] := by
    rw [List.filter_eq_nil_iff]
    intro ip hip hn
    simp only [decide_eq_true_eq, mem_keptTargets] at hn
    exact hn ⟨h ip hip, hip⟩
  rw [createPlan, createOptions, this]
  rfl

theorem mutationPlan_nil_of_converged (ipv4 ipv6 : List String) (zone : List DomainRecord)
    (h4 : ∀ t, t ∈ apexTargets RecordTypeA zone ↔ t ∈ ipv4)
    (h6 : ∀ t, t ∈ apexTargets RecordTypeAAAA zone ↔ t ∈ ipv6) :
    mutationPlan ipv4 ipv6 zone = [] := by
  rw [mutationPlan, deletePlan_nil_of_converged ipv4 ipv6 zone (fun t => (h4 t).mp)
    (fun t => (h6 t).mp), createPlan_nil_of_converged _ _ _ (fun t => (h4 t).mpr),
    createPlan_nil_of_converged _ _ _ (fun t => (h6 t).mpr)]
  rfl

/-- C2 (idempotence): when `setDNS` has returned without error on a zone with pairwise
distinct record identifiers, a second call with the same arguments that meets the zone
as the first call left it issues no delete and no create, whether or not its own calls
succeed. -/
theorem setDNS_idempotent (ipv4 ipv6 : List String) (w w2 : Cloud) (hu : UniqueIDs w.zone)
    (hok : (setDNS ipv4 ipv6 w).1 = none) (hz : w2.zone = (setDNS ipv4 ipv6 w).2.zone) :
    ∀ c, c ∈ issued w2 (setDNS ipv4 ipv6 w2).2 → c.isMutation = false := by
  obtain ⟨h4, h6⟩ := setDNS_success_apexTargets ipv4 ipv6 w hu hok
  have hp : mutationPlan ipv4 ipv6 w2.zone = [] := by
    apply mutationPlan_nil_of_converged
    · intro t; rw [hz, h4]; exact mem_kept_or_created _ _ _ t
    · intro t; rw [hz, h6]; exact mem_kept_or_created _ _ _ t
  intro c hc
  rw [setDNS_eq_runPlan, hp] at hc
  obtain ⟨n, -, hn, -⟩ := runPlan_issued [Call.ListDomainRecords] w2
  rw [hn] at hc
  have := List.mem_of_mem_take hc
  simp only [List.mem_singleton] at this
  subst this
  rfl

theorem setDNS_idempotent_witness :
    UniqueIDs (sampleCloud sampleZone noFailure).zone ∧
    (setDNS ["1.1.1.1", "3.3.3.3"] ["::7"] (sampleCloud sampleZone noFailure)).1 = none ∧
    ∀ c, c ∈ issued (setDNS ["1.1.1.1", "3.3.3.3"] ["::7"] (sampleCloud sampleZone noFailure)).2
        (setDNS ["1.1.1.1", "3.3.3.3"] ["::7"]
          (setDNS ["1.1.1.1", "3.3.3.3"] ["::7"] (sampleCloud sampleZone noFailure)).2).2 →
      c.isMutation = false :=
  ⟨by decide, by decide,
    setDNS_idempotent ["1.1.1.1", "3.3.3.3"] ["::7"] (sampleCloud sampleZone noFailure)
      (setDNS ["1.1.1.1", "3.3.3.3"] ["::7"] (sampleCloud sampleZone noFailure)).2
      (by decide) (by decide) rfl⟩

/-! ## Reconciliation: the number of operations -/

theorem isStale_of_apex_A (ipv4 ipv6 : List String) (r : DomainRecord)
    (h : isApex RecordTypeA r = true) :
    isStale ipv4 ipv6 r = decide (¬ r.Target ∈ ipv4) := by
  simp [isStale, h, isApex_not_both r h]

theorem isStale_of_apex_AAAA (ipv4 ipv6 : List String) (r : DomainRecord)
    (h : isApex RecordTypeAAAA r = true) :
    isStale ipv4 ipv6 r = decide (¬ r.Target ∈ ipv6) := by
  have hA : isApex RecordTypeA r = false := by
    cases h2 : isApex RecordTypeA r
    · rfl
    · rw [isApex_not_both r h2] at h; cases h
  simp [isStale, h, hA]

theorem familyOps_append (ty : String) (zone : List DomainRecord) (a b : List Call) :
    familyOps ty zone (a ++ b) = familyOps ty zone a + familyOps ty zone b := by
  simp [familyOps]

theorem familyOps_deletePlan (ty : String) (D ipv4 ipv6 : List String)
    (zone : List DomainRecord) (hu : UniqueIDs zone)
    (hst : ∀ r, isApex ty r = true → isStale ipv4 ipv6 r = decide (¬ r.Target ∈ D)) :
    familyOps ty zone (deletePlan ipv4 ipv6 zone) =
      ((apexTargets ty zone).filter (fun t => decide (¬ t ∈ D))).length := by
  unfold familyOps deletePlan staleIDs apexTargets
  rw [List.filter_map, List.length_map, List.filter_map, List.length_map, List.filter_map,
    List.length_map, List.filter_filter, List.filter_filter]
  congr 1
  apply List.filter_congr
  intro r hr
  by_cases ha : isApex ty r = true
  · have hm : r.ID ∈ (zone.filter (isApex ty)).map (fun r => r.ID) :=
      List.mem_map.mpr ⟨r, List.mem_filter.mpr ⟨hr, ha⟩, rfl⟩
    simp [Call.inFamily, hm, ha, hst r ha]
  · have hm : ¬ r.ID ∈ (zone.filter (isApex ty)).map (fun r => r.ID) := fun h =>
      ha (id_mem_filter_of_unique zone hu _ r hr h)
    simp only [Function.comp_apply, Call.inFamily, hm, decide_False, Bool.false_and]
    simp [ha]

theorem familyOps_createPlan_same (ty : String) (zone : List DomainRecord)
    (exist ips : List String) :
    familyOps ty zone (createPlan ty exist ips) =
      (ips.filter (fun ip => decide (¬ ip ∈ exist))).length := by
  unfold familyOps createPlan createOptions
  rw [List.map_map, List.filter_map, List.length_map]
  congr 1
  rw [List.filter_eq_self]
  intro ip _
  simp [Call.inFamily]

theorem familyOps_createPlan_other (ty ty2 : String) (h : ty2 ≠ ty) (zone : List DomainRecord)
    (exist ips : List String) : familyOps ty zone (createPlan ty2 exist ips) = 0 := by
  unfold familyOps createPlan createOptions
  rw [List.map_map, List.filter_map, List.length_map, List.length_eq_zero,
    List.filter_eq_nil_iff]
  intro ip _
  simp [Call.inFamily, h]

theorem filter_not_mem_kept (ty : String) (ips : List String) (zone : List DomainRecord) :
    ips.filter (fun ip => decide (¬ ip ∈ keptTargets ty ips zone)) =
      ips.filter (fun ip => decide (¬ ip ∈ apexTargets ty zone)) := by
  apply List.filter_congr
  intro ip hip
  simp [mem_keptTargets, hip]

theorem card_sdiff_of_nodup (E D : List String) (h : E.Nodup) :
    (E.toFinset \ D.toFinset).card = (E.filter (fun t => decide (¬ t ∈ D))).length := by
  have : E.toFinset \ D.toFinset = (E.filter (fun t => decide (¬ t ∈ D))).toFinset := by
    ext t; simp
  rw [this, List.toFinset_card_of_nodup (h.filter _)]

/-- The number of operations of a run of `setDNS` in which no call failed, per family,
counted with multiplicity: one delete for every apex record of the family whose target
is not desired and one create for every entry of the desired sequence that is not the
target of an apex record of the family. -/
theorem setDNS_familyOps (ipv4 ipv6 : List String) (w : Cloud) (hu : UniqueIDs w.zone)
    (hok : (setDNS ipv4 ipv6 w).1 = none) :
    familyOps RecordTypeA w.zone (issued w (setDNS ipv4 ipv6 w).2) =
      ((apexTargets RecordTypeA w.zone).filter (fun t => decide (¬ t ∈ ipv4))).length +
        (ipv4.filter (fun ip => decide (¬ ip ∈ apexTargets RecordTypeA w.zone))).length ∧
    familyOps RecordTypeAAAA w.zone (issued w (setDNS ipv4 ipv6 w).2) =
      ((apexTargets RecordTypeAAAA w.zone).filter (fun t => decide (¬ t ∈ ipv6))).length +
        (ipv6.filter (fun ip => decide (¬ ip ∈ apexTargets RecordTypeAAAA w.zone))).length := by
  obtain ⟨-, hi⟩ := setDNS_success ipv4 ipv6 w hok
  have hl : ∀ ty cs, familyOps ty w.zone (Call.ListDomainRecords :: cs) =
      familyOps ty w.zone cs := by
    intro ty cs; simp [familyOps, List.filter_cons, Call.inFamily]
  rw [hi, hl, hl, mutationPlan, familyOps_append, familyOps_append, familyOps_append,
    familyOps_append]
  constructor
  · rw [familyOps_deletePlan RecordTypeA ipv4 ipv4 ipv6 w.zone hu
        (isStale_of_apex_A ipv4 ipv6),
      familyOps_createPlan_same, familyOps_createPlan_other _ _ (Ne.symm RecordTypeA_ne_AAAA),
      filter_not_mem_kept]
    rfl
  · rw [familyOps_deletePlan RecordTypeAAAA ipv6 ipv4 ipv6 w.zone hu
        (isStale_of_apex_AAAA ipv4 ipv6),
      familyOps_createPlan_same, familyOps_createPlan_other _ _ RecordTypeA_ne_AAAA,
      filter_not_mem_kept]
    omega

/-- C3 (minimal diff, amended): on a zone with pairwise distinct record identifiers, a
run of `setDNS` that returns no error issues, for a family whose apex records have
pairwise distinct targets `E` and whose desired sequence `D` has no repeated entry,
exactly `|E \ D| + |D \ E|` deletes and creates. -/
theorem setDNS_minimal_diff (ipv4 ipv6 : List String) (w : Cloud) (hu : UniqueIDs w.zone)
    (hok : (setDNS ipv4 ipv6 w).1 = none) :
    ((apexTargets RecordTypeA w.zone).Nodup → ipv4.Nodup →
      familyOps RecordTypeA w.zone (issued w (setDNS ipv4 ipv6 w).2) =
        symmDiffCard (apexTargets RecordTypeA w.zone) ipv4) ∧
    ((apexTargets RecordTypeAAAA w.zone).Nodup → ipv6.Nodup →
      familyOps RecordTypeAAAA w.zone (issued w (setDNS ipv4 ipv6 w).2) =
        symmDiffCard (apexTargets RecordTypeAAAA w.zone) ipv6) := by
  obtain ⟨h4, h6⟩ := setDNS_familyOps ipv4 ipv6 w hu hok
  constructor
  · intro hE hD
    rw [h4, symmDiffCard, card_sdiff_of_nodup _ _ hE, card_sdiff_of_nodup _ _ hD]
  · intro hE hD
    rw [h6, symmDiffCard, card_sdiff_of_nodup _ _ hE, card_sdiff_of_nodup _ _ hD]

theorem setDNS_minimal_diff_witness :
    UniqueIDs (sampleCloud singleZone noFailure).zone ∧
    (setDNS [] [] (sampleCloud singleZone noFailure)).1 = none ∧
    (apexTargets RecordTypeA (sampleCloud singleZone noFailure).zone).Nodup ∧
    ([] : List String).Nodup ∧
    familyOps RecordTypeA (sampleCloud singleZone noFailure).zone
      (issued (sampleCloud singleZone noFailure)
        (setDNS [] [] (sampleCloud singleZone noFailure)).2) =
      symmDiffCard (apexTargets RecordTypeA (sampleCloud singleZone noFailure).zone) [] ∧
    issued (sampleCloud singleZone noFailure)
        (setDNS [] [] (sampleCloud singleZone noFailure)).2 =
      [Call.ListDomainRecords, Call.DeleteDomainRecord 1] :=
  ⟨by decide, by decide, by decide, by decide,
    (setDNS_minimal_diff [] [] (sampleCloud singleZone noFailure) (by decide) (by decide)).1
      (by decide) (by decide), by decide⟩

/-- C3 as stated fails: with an empty zone and the desired sequence
`["1.1.1.1", "1.1.1.1"]` a run without failure issues two creates of type `A`, while
`|E \ D| + |D \ E|` is one. -/
theorem setDNS_minimal_diff_counterexample :
    UniqueIDs (sampleCloud [] noFailure).zone ∧
    (setDNS ["1.1.1.1", "1.1.1.1"] [] (sampleCloud [] noFailure)).1 = none ∧
    issued (sampleCloud [] noFailure)
        (setDNS ["1.1.1.1", "1.1.1.1"] [] (sampleCloud [] noFailure)).2 =
      [Call.ListDomainRecords,
       Call.CreateDomainRecord { Name := "", Type_ := "A", Target := "1.1.1.1" },
       Call.CreateDomainRecord { Name := "", Type_ := "A", Target := "1.1.1.1" }] ∧
    familyOps RecordTypeA (sampleCloud [] noFailure).zone
        (issued (sampleCloud [] noFailure)
          (setDNS ["1.1.1.1", "1.1.1.1"] [] (sampleCloud [] noFailure)).2) = 2 ∧
    symmDiffCard (apexTargets RecordTypeA (sampleCloud [] noFailure).zone)
        ["1.1.1.1", "1.1.1.1"] = 1 ∧
    familyOps RecordTypeA (sampleCloud [] noFailure).zone
        (issued (sampleCloud [] noFailure)
          (setDNS ["1.1.1.1", "1.1.1.1"] [] (sampleCloud [] noFailure)).2) ≠
      symmDiffCard (apexTargets RecordTypeA (sampleCloud [] noFailure).zone)
        ["1.1.1.1", "1.1.1.1"] := by
  decide

/-! ## Reconciliation: what every run leaves alone -/

theorem setDNS_issued_mem (ipv4 ipv6 : List String) (w : Cloud) (c : Call)
    (h : c ∈ issued w (setDNS ipv4 ipv6 w).2) :
    c = Call.ListDomainRecords ∨ c ∈ mutationPlan ipv4 ipv6 w.zone := by
  rw [setDNS_eq_runPlan] at h
  obtain ⟨n, -, hn, -⟩ :=
    runPlan_issued (Call.ListDomainRecords :: mutationPlan ipv4 ipv6 w.zone) w
  rw [hn] at h
  simpa using List.mem_of_mem_take h

theorem mem_mutationPlan_delete (ipv4 ipv6 : List String) (zone : List DomainRecord) (i : Nat)
    (h : Call.DeleteDomainRecord i ∈ mutationPlan ipv4 ipv6 zone) :
    i ∈ staleIDs ipv4 ipv6 zone := by
  simpa [mutationPlan, deletePlan, createPlan] using h

theorem mem_mutationPlan_create (ipv4 ipv6 : List String) (zone : List DomainRecord)
    (o : DomainRecordCreateOptions)
    (h : Call.CreateDomainRecord o ∈ mutationPlan ipv4 ipv6 zone) :
    o ∈ createOptions RecordTypeA (keptTargets RecordTypeA ipv4 zone) ipv4 ∨
      o ∈ createOptions RecordTypeAAAA (keptTargets RecordTypeAAAA ipv6 zone) ipv6 := by
  simpa [mutationPlan, deletePlan, createPlan] using h

theorem mem_createOptions (ty : String) (exist ips : List String)
    (o : DomainRecordCreateOptions) (h : o ∈ createOptions ty exist ips) :
    o.Name = "" ∧ o.Type_ = ty ∧ o.Target ∈ ips ∧ ¬ o.Target ∈ exist := by
  simp only [createOptions, List.mem_map, List.mem_filter, decide_eq_true_eq] at h
  obtain ⟨ip, ⟨h1, h2⟩, rfl⟩ := h
  exact ⟨rfl, rfl, h1, h2⟩

/-- The zone after any run of `setDNS`, aborted or not: some of the stale records are
gone and some of the planned records have been added. -/
theorem setDNS_zone_any_run (ipv4 ipv6 : List String) (w : Cloud) :
    ∃ (ds : List Nat) (os : List DomainRecordCreateOptions),
      (∀ i, i ∈ ds → i ∈ staleIDs ipv4 ipv6 w.zone) ∧
      (∀ o, o ∈ os →
        o ∈ createOptions RecordTypeA (keptTargets RecordTypeA ipv4 w.zone) ipv4 ++
          createOptions RecordTypeAAAA (keptTargets RecordTypeAAAA ipv6 w.zone) ipv6) ∧
      (setDNS ipv4 ipv6 w).2.zone =
        w.zone.filter (fun r => decide (¬ r.ID ∈ ds)) ++
          createdRecords (w.zone.filter (fun r => decide (¬ r.ID ∈ ds))) os := by
  rw [setDNS_eq_runPlan]
  obtain ⟨m, -, -, hz, -⟩ :=
    runPlan_shape (Call.ListDomainRecords :: mutationPlan ipv4 ipv6 w.zone) w
  cases m with
  | zero =>
    refine ⟨[], [], by simp, by simp, ?_⟩
    rw [hz]; simp [createdRecords]
  | succ m =>
    refine ⟨(staleIDs ipv4 ipv6 w.zone).take m,
      (createOptions RecordTypeA (keptTargets RecordTypeA ipv4 w.zone) ipv4 ++
        createOptions RecordTypeAAAA (keptTargets RecordTypeAAAA ipv6 w.zone) ipv6).take
          (m - (deletePlan ipv4 ipv6 w.zone).length),
      fun i hi => List.mem_of_mem_take hi, fun o ho => List.mem_of_mem_take ho, ?_⟩
    rw [hz, List.take_succ_cons, List.foldl_cons, mutationPlan, List.take_append_eq_append_take,
      List.foldl_append, deletePlan, ← List.map_take, foldl_effect_deletes, createPlan,
      createPlan, ← List.map_append, ← List.map_take, foldl_effect_creates]
    rfl

theorem not_stale_of_kept_A (ipv4 ipv6 : List String) (r : DomainRecord)
    (ha : isApex RecordTypeA r = true) (ht : r.Target ∈ ipv4) : ¬ isStale ipv4 ipv6 r = true := by
  rw [isStale_of_apex_A ipv4 ipv6 r ha]; simpa using ht

theorem not_stale_of_kept_AAAA (ipv4 ipv6 : List String) (r : DomainRecord)
    (ha : isApex RecordTypeAAAA r = true) (ht : r.Target ∈ ipv6) :
    ¬ isStale ipv4 ipv6 r = true := by
  rw [isStale_of_apex_AAAA ipv4 ipv6 r ha]; simpa using ht

/-- A record of the zone that is not stale is neither the subject of a delete nor
missing from the zone after any run of `setDNS`. -/
theorem setDNS_keeps_not_stale (ipv4 ipv6 : List String) (w : Cloud) (hu : UniqueIDs w.zone)
    (r : DomainRecord) (hr : r ∈ w.zone) (hs : ¬ isStale ipv4 ipv6 r = true) :
    ¬ Call.DeleteDomainRecord r.ID ∈ issued w (setDNS ipv4 ipv6 w).2 ∧
      r ∈ (setDNS ipv4 ipv6 w).2.zone := by
  have hid : ¬ r.ID ∈ staleIDs ipv4 ipv6 w.zone := fun h =>
    hs (id_mem_filter_of_unique w.zone hu _ r hr h)
  constructor
  · intro h
    rcases setDNS_issued_mem ipv4 ipv6 w _ h with h | h
    · cases h
    · exact hid (mem_mutationPlan_delete _ _ _ _ h)
  · obtain ⟨ds, os, hds, -, hz⟩ := setDNS_zone_any_run ipv4 ipv6 w
    rw [hz]
    apply List.mem_append_left
    rw [List.mem_filter]
    exact ⟨hr, by simpa using fun h => hid (hds _ h)⟩

/-- C4 (addresses already represented are not touched): in every run of `setDNS` on a
zone with pairwise distinct record identifiers, whether or not calls fail, an apex `A`
record whose target is an entry of `ipv4` and an apex `AAAA` record whose target is an
entry of `ipv6` is never the subject of a delete and is still in the zone afterwards,
and no create is issued for an address that is the target of an apex record of the type
of the create. -/
theorem setDNS_represented_untouched (ipv4 ipv6 : List String) (w : Cloud)
    (hu : UniqueIDs w.zone) :
    (∀ r, r ∈ w.zone → isApex RecordTypeA r = true → r.Target ∈ ipv4 →
      ¬ Call.DeleteDomainRecord r.ID ∈ issued w (setDNS ipv4 ipv6 w).2 ∧
        r ∈ (setDNS ipv4 ipv6 w).2.zone) ∧
    (∀ r, r ∈ w.zone → isApex RecordTypeAAAA r = true → r.Target ∈ ipv6 →
      ¬ Call.DeleteDomainRecord r.ID ∈ issued w (setDNS ipv4 ipv6 w).2 ∧
        r ∈ (setDNS ipv4 ipv6 w).2.zone) ∧
    (∀ o, Call.CreateDomainRecord o ∈ issued w (setDNS ipv4 ipv6 w).2 →
      ¬ o.Target ∈ apexTargets o.Type_ w.zone) := by
  refine ⟨?_, ?_, ?_⟩
  · intro r hr ha ht
    exact setDNS_keeps_not_stale ipv4 ipv6 w hu r hr (not_stale_of_kept_A ipv4 ipv6 r ha ht)
  · intro r hr ha ht
    exact setDNS_keeps_not_stale ipv4 ipv6 w hu r hr (not_stale_of_kept_AAAA ipv4 ipv6 r ha ht)
  · intro o ho hin
    rcases setDNS_issued_mem ipv4 ipv6 w _ ho with h | h
    · cases h
    · rcases mem_mutationPlan_create _ _ _ _ h with h | h
      · obtain ⟨-, h2, h3, h4⟩ := mem_createOptions _ _ _ _ h
        rw [h2] at hin
        exact h4 ((mem_keptTargets _ _ _ _).mpr ⟨hin, h3⟩)
      · obtain ⟨-, h2, h3, h4⟩ := mem_createOptions _ _ _ _ h
        rw [h2] at hin
        exact h4 ((mem_keptTargets _ _ _ _).mpr ⟨hin, h3⟩)

theorem setDNS_represented_untouched_witness :
    UniqueIDs (sampleCloud sampleZone (failAt 2)).zone ∧
    (setDNS ["1.1.1.1", "3.3.3.3"] ["::7"] (sampleCloud sampleZone (failAt 2))).1 =
      some { msg := "provider error" } ∧
    (∀ r, r ∈ (sampleCloud sampleZone (failAt 2)).zone → isApex RecordTypeA r = true →
      r.Target ∈ ["1.1.1.1", "3.3.3.3"] →
      ¬ Call.DeleteDomainRecord r.ID ∈ issued (sampleCloud sampleZone (failAt 2))
          (setDNS ["1.1.1.1", "3.3.3.3"] ["::7"] (sampleCloud sampleZone (failAt 2))).2 ∧
        r ∈ (setDNS ["1.1.1.1", "3.3.3.3"] ["::7"] (sampleCloud sampleZone (failAt 2))).2.zone) :=
  ⟨by decide, by decide,
    (setDNS_represented_untouched ["1.1.1.1", "3.3.3.3"] ["::7"]
      (sampleCloud sampleZone (failAt 2)) (by decide)).1⟩

theorem createdRecords_in_scope (ipv4 ipv6 : List String) (zone z : List DomainRecord)
    (os : List DomainRecordCreateOptions)
    (hos : ∀ o, o ∈ os →
      o ∈ createOptions RecordTypeA (keptTargets RecordTypeA ipv4 zone) ipv4 ++
        createOptions RecordTypeAAAA (keptTargets RecordTypeAAAA ipv6 zone) ipv6) :
    (createdRecords z os).filter outOfScope = [] := by
  rw [List.filter_eq_nil_iff]
  intro r hr
  have ho := hos _ (mem_createdRecords os z r hr)
  rw [List.mem_append] at ho
  rcases ho with ho | ho
  · obtain ⟨h1, h2, -⟩ := mem_createOptions _ _ _ _ ho
    simp only at h1 h2
    simp [outOfScope, h1, h2]
  · obtain ⟨h1, h2, -⟩ := mem_createOptions _ _ _ _ ho
    simp only at h1 h2
    simp [outOfScope, h1, h2]

theorem not_stale_of_outOfScope (ipv4 ipv6 : List String) (r : DomainRecord)
    (h : outOfScope r = true) : ¬ isStale ipv4 ipv6 r = true := by
  simp only [outOfScope, decide_eq_true_eq] at h
  simp only [isStale, isApex, Bool.or_eq_true, Bool.and_eq_true, decide_eq_true_eq]
  rintro (⟨⟨h1, h2⟩, -⟩ | ⟨⟨h1, h2⟩, -⟩)
  · rcases h with h | h
    · exact h h2
    · exact h.1 h1
  · rcases h with h | h
    · exact h h2
    · exact h.2 h1

/-- C5 (unrelated records are not touched): in every run of `setDNS` on a zone with
pairwise distinct record identifiers, whether or not calls fail, no delete is issued for
a record whose name is not empty or whose type is neither `A` nor `AAAA`, every create
has the empty name and the type `A` or `AAAA`, and the records out of scope are the same
after the run as before, in the same order. -/
theorem setDNS_unrelated_untouched (ipv4 ipv6 : List String) (w : Cloud)
    (hu : UniqueIDs w.zone) :
    (∀ r, r ∈ w.zone → outOfScope r = true →
      ¬ Call.DeleteDomainRecord r.ID ∈ issued w (setDNS ipv4 ipv6 w).2) ∧
    (∀ o, Call.CreateDomainRecord o ∈ issued w (setDNS ipv4 ipv6 w).2 →
      o.Name = "" ∧ (o.Type_ = RecordTypeA ∨ o.Type_ = RecordTypeAAAA)) ∧
    (setDNS ipv4 ipv6 w).2.zone.filter outOfScope = w.zone.filter outOfScope := by
  refine ⟨?_, ?_, ?_⟩
  · intro r hr ho
    exact (setDNS_keeps_not_stale ipv4 ipv6 w hu r hr (not_stale_of_outOfScope _ _ r ho)).1
  · intro o ho
    rcases setDNS_issued_mem ipv4 ipv6 w _ ho with h | h
    · cases h
    · rcases mem_mutationPlan_create _ _ _ _ h with h | h
      · obtain ⟨h1, h2, -⟩ := mem_createOptions _ _ _ _ h
        exact ⟨h1, Or.inl h2⟩
      · obtain ⟨h1, h2, -⟩ := mem_createOptions _ _ _ _ h
        exact ⟨h1, Or.inr h2⟩
  · obtain ⟨ds, os, hds, hos, hz⟩ := setDNS_zone_any_run ipv4 ipv6 w
    rw [hz, List.filter_append, createdRecords_in_scope ipv4 ipv6 w.zone _ os hos,
      List.append_nil, List.filter_filter]
    apply List.filter_congr
    intro r hr
    by_cases ho : outOfScope r = true
    · have hid : ¬ r.ID ∈ ds := fun h =>
        not_stale_of_outOfScope ipv4 ipv6 r ho
          (id_mem_filter_of_unique w.zone hu _ r hr (hds _ h))
      simp [ho, hid]
    · simp [ho]

theorem setDNS_unrelated_untouched_witness :
    UniqueIDs (sampleCloud sampleZone noFailure).zone ∧
    (setDNS ["1.1.1.1", "3.3.3.3"] ["::7"]
      (sampleCloud sampleZone noFailure)).2.zone.filter outOfScope =
        [{ ID := 3, Type_ := "A", Name := "www", Target := "9.9.9.9" },
         { ID := 5, Type_ := "TXT", Name := "", Target := "v=spf1" }] :=
  ⟨by decide,
    (setDNS_unrelated_untouched ["1.1.1.1", "3.3.3.3"] ["::7"]
      (sampleCloud sampleZone noFailure) (by decide)).2.2⟩

/-! ## Observation and the polling loop -/

theorem appendPublic_eq (ipsv4 : List String) (l : List InstanceIP) :
    appendPublic ipsv4 l = ipsv4 ++ l.map (fun ip => ip.Address) := by
  induction l generalizing ipsv4 with
  | nil => simp [appendPublic]
  | cons ip rest ih => simp [appendPublic, ih]

theorem GetInstanceIPAddresses_eq (linodeID : Nat) (w : Cloud) :
    GetInstanceIPAddresses linodeID w =
      (match (w.issue (Call.GetInstanceIPAddresses linodeID)).1 with
        | some err => Except.error err
        | none => Except.ok (w.addresses linodeID),
        (w.issue (Call.GetInstanceIPAddresses linodeID)).2) := by
  unfold GetInstanceIPAddresses Cloud.issue
  cases h : w.fails w.log.length <;> simp

theorem GetLKEClusterPool_eq (w : Cloud) :
    GetLKEClusterPool w =
      (match (w.issue Call.GetLKEClusterPool).1 with
        | some err => Except.error err
        | none => Except.ok w.pool,
        (w.issue Call.GetLKEClusterPool).2) := by
  unfold GetLKEClusterPool Cloud.issue
  cases h : w.fails w.log.length <;> simp

/-- The loop of `getIPs` issues one address call per node, stopping at the first that
fails; when none fails it has appended the reported addresses to its accumulators. -/
theorem getIPsLoop_eq (ls : List LKEClusterPoolLinode) (ipsv4 ipsv6 : List String) (w : Cloud) :
    getIPsLoop ls ipsv4 ipsv6 w =
      (match (runPlan (ls.map (fun l => Call.GetInstanceIPAddresses l.InstanceID)) w).1 with
        | some err => Except.error err
        | none => Except.ok
            (ipsv4 ++ ls.flatMap
              (fun l => (w.addresses l.InstanceID).IPv4.Public.map (fun ip => ip.Address)),
             ipsv6 ++ (ls.filter (fun l => (w.addresses l.InstanceID).IPv6.SLAAC.Public)).map
              (fun l => (w.addresses l.InstanceID).IPv6.SLAAC.Address)),
        (runPlan (ls.map (fun l => Call.GetInstanceIPAddresses l.InstanceID)) w).2) := by
  induction ls generalizing ipsv4 ipsv6 w with
  | nil => simp [getIPsLoop, runPlan]
  | cons l rest ih =>
    rw [getIPsLoop, GetInstanceIPAddresses_eq, List.map_cons, runPlan_cons]
    rcases hi : w.issue (Call.GetInstanceIPAddresses l.InstanceID) with ⟨_ | e, w1⟩
    · have ha : w1.addresses = w.addresses := by
        have := issue_addresses w (Call.GetInstanceIPAddresses l.InstanceID)
        rw [hi] at this; exact this
      simp only [if_true, ih, ha, appendPublic_eq]
      by_cases hp : (w.addresses l.InstanceID).IPv6.SLAAC.Public = true
      · simp [hp, List.filter_cons, List.flatMap_cons]
      · simp [hp, List.filter_cons, List.flatMap_cons]
    · simp

/-- `getIPs` issues the calls of the observation plan, stopping at the first that fails;
it returns the error of that call and no addresses, or else the sorted reported
addresses. -/
theorem getIPs_eq (w : Cloud) :
    getIPs w =
      (match (runPlan (observePlan w.pool) w).1 with
        | some err => ([], [], some err)
        | none => (sortStrings (reportedIPv4 w), sortStrings (reportedIPv6 w), none),
        (runPlan (observePlan w.pool) w).2) := by
  rw [getIPs, GetLKEClusterPool_eq, observePlan, runPlan_cons]
  rcases hi : w.issue Call.GetLKEClusterPool with ⟨_ | e, w1⟩
  · have ha : w1.addresses = w.addresses := by
      have := issue_addresses w Call.GetLKEClusterPool
      rw [hi] at this; exact this
    simp only [if_true, getIPsLoop_eq, ha]
    rcases hr : runPlan (w.pool.Linodes.map
      (fun l => Call.GetInstanceIPAddresses l.InstanceID)) w1 with ⟨_ | e, w2⟩
    · simp [hr, reportedIPv4, reportedIPv6]
    · simp [hr]
  · simp

theorem getIPs_err (w : Cloud) : (getIPs w).1.2.2 = (runPlan (observePlan w.pool) w).1 := by
  rw [getIPs_eq]
  cases (runPlan (observePlan w.pool) w).1 <;> rfl

theorem getIPs_state (w : Cloud) : (getIPs w).2 = (runPlan (observePlan w.pool) w).2 := by
  rw [getIPs_eq]

theorem getIPs_ok (w : Cloud) (h : (getIPs w).1.2.2 = none) :
    (getIPs w).1 = (sortStrings (reportedIPv4 w), sortStrings (reportedIPv6 w), none) := by
  rw [getIPs_err] at h
  rw [getIPs_eq]
  simp [h]

theorem getIPs_failed (w : Cloud) (e : Error) (h : (getIPs w).1.2.2 = some e) :
    (getIPs w).1 = ([], [], some e) := by
  rw [getIPs_err] at h
  rw [getIPs_eq]
  simp [h]

theorem getIPs_issued (w : Cloud) (c : Call) (h : c ∈ issued w (getIPs w).2) :
    c.isReconcile = false := by
  rw [getIPs_state] at h
  obtain ⟨n, -, hn, -⟩ := runPlan_issued (observePlan w.pool) w
  rw [hn] at h
  have := List.mem_of_mem_take h
  simp only [observePlan, List.mem_cons, List.mem_map] at this
  rcases this with h | ⟨l, -, h⟩
  · subst h; rfl
  · subst h; rfl

theorem tick_of_failed (last : String) (w : Cloud) (h : (getIPs w).1.2.2 ≠ none) :
    tick last w = (last, (getIPs w).2) := by
  unfold tick
  rcases hg : getIPs w with ⟨⟨v4, v6, _ | e⟩, w1⟩
  · rw [hg] at h; exact absurd rfl h
  · rfl

theorem tick_of_unchanged (last : String) (w : Cloud)
    (hf : fingerprint (getIPs w).1.1 (getIPs w).1.2.1 = last) :
    tick last w = (last, (getIPs w).2) := by
  unfold tick
  rcases hg : getIPs w with ⟨⟨v4, v6, _ | e⟩, w1⟩
  · rw [hg] at hf
    simp only [fingerprint] at hf
    simp [hf]
  · rfl

theorem tick_of_changed (last : String) (w : Cloud) (h : (getIPs w).1.2.2 = none)
    (hf : fingerprint (getIPs w).1.1 (getIPs w).1.2.1 ≠ last) :
    tick last w = (fingerprint (getIPs w).1.1 (getIPs w).1.2.1,
      (setDNS (getIPs w).1.1 (getIPs w).1.2.1 (getIPs w).2).2) := by
  unfold tick
  rcases hg : getIPs w with ⟨⟨v4, v6, _ | e⟩, w1⟩
  · rw [hg] at hf
    simp only [fingerprint] at hf
    simp [hf, fingerprint]
  · rw [hg] at h; cases h

/-- After a pass whose observation succeeded, `last` is the fingerprint of the observed
snapshot, whether `setDNS` was skipped, succeeded or failed. -/
theorem tick_last_of_observed (last : String) (w : Cloud) (h : (getIPs w).1.2.2 = none) :
    (tick last w).1 = fingerprint (getIPs w).1.1 (getIPs w).1.2.1 := by
  by_cases hf : fingerprint (getIPs w).1.1 (getIPs w).1.2.1 = last
  · rw [tick_of_unchanged last w hf]; exact hf.symm
  · rw [tick_of_changed last w h hf]

theorem mainLoop_of_failed (last : String) (ws : List Cloud)
    (h : ∀ w, w ∈ ws → (getIPs w).1.2.2 ≠ none) : mainLoop last ws = last := by
  induction ws with
  | nil => rfl
  | cons w rest ih =>
    rw [mainLoop, tick_of_failed last w (h w (List.mem_cons_self _ _))]
    exact ih (fun w0 hw0 => h w0 (List.mem_cons_of_mem _ hw0))

theorem fingerprint_ne_empty (ipv4 ipv6 : List String) : fingerprint ipv4 ipv6 ≠ "" := by
  intro h
  have := congrArg String.length h
  simp only [fingerprint, String.length_append] at this
  have h0 : "".length = 0 := rfl
  have h1 : ",".length = 1 := rfl
  omega

/-- C6 (defect of the code): the pass stores the new fingerprint before it calls
`setDNS`.  With `last = ""`, the nodes 7 and 8 reporting their addresses and the call
`ListDomainRecords` (call number 3) failing, `setDNS` returns the error and yet `last`
is the fingerprint of the snapshot after the pass; the next pass, which observes the
same snapshot and meets the zone unchanged, issues the three observation calls only and
does not call `setDNS` again. -/
theorem tick_failed_reconcile_stores_fingerprint :
    (getIPs (sampleCloud sampleZone (failAt 3))).1 =
      (["1.1.1.1", "2.2.2.2", "3.3.3.3"], ["::7"], none) ∧
    (setDNS ["1.1.1.1", "2.2.2.2", "3.3.3.3"] ["::7"]
      (getIPs (sampleCloud sampleZone (failAt 3))).2).1 = some { msg := "provider error" } ∧
    (tick "" (sampleCloud sampleZone (failAt 3))).1 = "1.1.1.1,2.2.2.2,3.3.3.3,::7" ∧
    (tick "" (sampleCloud sampleZone (failAt 3))).2.zone = sampleZone ∧
    issued (sampleCloud sampleZone noFailure)
      (tick (tick "" (sampleCloud sampleZone (failAt 3))).1
        (sampleCloud sampleZone noFailure)).2 =
      [Call.GetLKEClusterPool, Call.GetInstanceIPAddresses 7, Call.GetInstanceIPAddresses 8] := by
  decide

theorem sortStrings_perm (xs : List String) : (sortStrings xs).Perm xs :=
  List.perm_insertionSort _ xs

/-- C7 (amended): when `getIPs` succeeds, each returned sequence is a rearrangement of
the addresses that the nodes report, every address as often as it is reported; so a
returned sequence is free of repetitions exactly when no address of its family is
reported twice. -/
theorem getIPs_nodup_iff (w : Cloud) (hok : (getIPs w).1.2.2 = none) :
    (getIPs w).1.1.Perm (reportedIPv4 w) ∧ (getIPs w).1.2.1.Perm (reportedIPv6 w) ∧
    ((getIPs w).1.1.Nodup ↔ (reportedIPv4 w).Nodup) ∧
    ((getIPs w).1.2.1.Nodup ↔ (reportedIPv6 w).Nodup) := by
  rw [getIPs_ok w hok]
  exact ⟨sortStrings_perm _, sortStrings_perm _, (sortStrings_perm _).nodup_iff,
    (sortStrings_perm _).nodup_iff⟩

theorem getIPs_nodup_iff_witness :
    (getIPs (sampleCloud sampleZone noFailure)).1.2.2 = none ∧
    (reportedIPv4 (sampleCloud sampleZone noFailure)).Nodup ∧
    (getIPs (sampleCloud sampleZone noFailure)).1.1.Nodup :=
  ⟨by decide, by decide,
    (getIPs_nodup_iff (sampleCloud sampleZone noFailure) (by decide)).2.2.1.mpr (by decide)⟩

/-- C7 as stated fails: the nodes 8 and 9 both report the public IPv4 address
`2.2.2.2`; `getIPs` succeeds and returns that address twice. -/
theorem getIPs_dedup_counterexample :
    (getIPs twinCloud).1 = (["2.2.2.2", "2.2.2.2"], [], none) ∧
    ¬ (getIPs twinCloud).1.1.Nodup := by
  decide

/-- C8 (change suppression): let two passes observe successfully, the second after the
first with only passes whose observation failed in between, whatever `last` was before
the first and whatever the provider looks like at each pass.  If the two snapshots have
the same fingerprint, the second of the two passes issues no `ListDomainRecords`, no
`DeleteDomainRecord` and no `CreateDomainRecord` call. -/
theorem tick_change_suppression (last0 : String) (w1 : Cloud) (ws : List Cloud) (w2 : Cloud)
    (h1 : (getIPs w1).1.2.2 = none) (hws : ∀ w, w ∈ ws → (getIPs w).1.2.2 ≠ none)
    (_h2 : (getIPs w2).1.2.2 = none)
    (hf : fingerprint (getIPs w1).1.1 (getIPs w1).1.2.1 =
      fingerprint (getIPs w2).1.1 (getIPs w2).1.2.1) :
    ∀ c, c ∈ issued w2 (tick (mainLoop last0 (w1 :: ws)) w2).2 → c.isReconcile = false := by
  have hl : mainLoop last0 (w1 :: ws) = fingerprint (getIPs w2).1.1 (getIPs w2).1.2.1 := by
    rw [mainLoop, mainLoop_of_failed _ ws hws, tick_last_of_observed last0 w1 h1, hf]
  intro c hc
  rw [tick_of_unchanged _ w2 hl.symm] at hc
  exact getIPs_issued w2 c hc

theorem tick_change_suppression_witness :
    (getIPs (sampleCloud sampleZone noFailure)).1.2.2 = none ∧
    (∀ w, w ∈ [sampleCloud sampleZone (failAt 1)] → (getIPs w).1.2.2 ≠ none) ∧
    (getIPs (sampleCloud [] noFailure)).1.2.2 = none ∧
    fingerprint (getIPs (sampleCloud sampleZone noFailure)).1.1
        (getIPs (sampleCloud sampleZone noFailure)).1.2.1 =
      fingerprint (getIPs (sampleCloud [] noFailure)).1.1
        (getIPs (sampleCloud [] noFailure)).1.2.1 ∧
    ∀ c, c ∈ issued (sampleCloud [] noFailure)
        (tick (mainLoop "" [sampleCloud sampleZone noFailure, sampleCloud sampleZone (failAt 1)])
          (sampleCloud [] noFailure)).2 → c.isReconcile = false :=
  ⟨by decide, by decide, by decide, by decide,
    tick_change_suppression "" (sampleCloud sampleZone noFailure)
      [sampleCloud sampleZone (failAt 1)] (sampleCloud [] noFailure)
      (by decide) (by decide) (by decide) (by decide)⟩

/-- C9 (all-or-nothing observation): if a call issued by `getIPs`, the pool call or the
address call of any node, fails with the error `e`, then `getIPs` returns `e` with two
empty sequences, whatever it had collected from earlier nodes, and the pass leaves
`last` as it was and issues no `ListDomainRecords`, `DeleteDomainRecord` or
`CreateDomainRecord` call. -/
theorem getIPs_all_or_nothing (last : String) (w : Cloud) (k : Nat) (e : Error)
    (h1 : w.log.length ≤ k) (h2 : k < (getIPs w).2.log.length) (h3 : w.fails k = some e) :
    (getIPs w).1 = ([], [], some e) ∧ (tick last w).1 = last ∧
    ∀ c, c ∈ issued w (tick last w).2 → c.isReconcile = false := by
  rw [getIPs_state] at h2
  have he : (getIPs w).1.2.2 = some e := by
    rw [getIPs_err]; exact (runPlan_failed_call _ w k e h1 h2 h3).1
  have hne : (getIPs w).1.2.2 ≠ none := by rw [he]; simp
  refine ⟨getIPs_failed w e he, ?_, ?_⟩
  · rw [tick_of_failed last w hne]
  · intro c hc
    rw [tick_of_failed last w hne] at hc
    exact getIPs_issued w c hc

theorem getIPs_all_or_nothing_witness :
    (sampleCloud sampleZone (failAt 2)).log.length ≤ 2 ∧
    2 < (getIPs (sampleCloud sampleZone (failAt 2))).2.log.length ∧
    (sampleCloud sampleZone (failAt 2)).fails 2 = some { msg := "provider error" } ∧
    (getIPs (sampleCloud sampleZone (failAt 2))).1 = ([], [], some { msg := "provider error" }) :=
  ⟨by decide, by decide, by decide,
    (getIPs_all_or_nothing "" (sampleCloud sampleZone (failAt 2)) 2 { msg := "provider error" }
      (by decide) (by decide) (by decide)).1⟩

theorem setDNS_issues_list (ipv4 ipv6 : List String) (w : Cloud) :
    Call.ListDomainRecords ∈ issued w (setDNS ipv4 ipv6 w).2 := by
  rw [setDNS_eq_runPlan]
  obtain ⟨m, -, -, -, hr⟩ :=
    runPlan_shape (Call.ListDomainRecords :: mutationPlan ipv4 ipv6 w.zone) w
  rcases hr with ⟨-, -, h⟩ | ⟨e, -, -, -, h⟩
  · simp [issued, h]
  · simp [issued, h]

/-- C10 (the first cycle reconciles): no snapshot has the fingerprint `""`, the value
of `last` at the start; so the first pass whose observation succeeds, after any number
of passes whose observation failed, calls `setDNS` with the observed snapshot, whatever
the zone holds: its calls are those of the observation followed by those of `setDNS`,
among them `ListDomainRecords`. -/
theorem first_cycle_reconciles (ws : List Cloud) (w : Cloud)
    (hws : ∀ w0, w0 ∈ ws → (getIPs w0).1.2.2 ≠ none) (hok : (getIPs w).1.2.2 = none) :
    (∀ ipv4 ipv6, fingerprint ipv4 ipv6 ≠ "") ∧
    (tick (main ws) w).2 = (setDNS (getIPs w).1.1 (getIPs w).1.2.1 (getIPs w).2).2 ∧
    Call.ListDomainRecords ∈ issued (getIPs w).2 (tick (main ws) w).2 := by
  have hl : main ws = "" := mainLoop_of_failed "" ws hws
  have ht := tick_of_changed "" w hok (fingerprint_ne_empty _ _)
  refine ⟨fingerprint_ne_empty, ?_, ?_⟩
  · rw [hl, ht]
  · rw [hl, ht]
    exact setDNS_issues_list _ _ _

theorem first_cycle_reconciles_witness :
    (∀ w0, w0 ∈ [sampleCloud sampleZone (failAt 0)] → (getIPs w0).1.2.2 ≠ none) ∧
    (getIPs (sampleCloud [] noFailure)).1.2.2 = none ∧
    Call.ListDomainRecords ∈ issued (getIPs (sampleCloud [] noFailure)).2
      (tick (main [sampleCloud sampleZone (failAt 0)]) (sampleCloud [] noFailure)).2 :=
  ⟨by decide, by decide,
    (first_cycle_reconciles [sampleCloud sampleZone (failAt 0)] (sampleCloud [] noFailure)
      (by decide) (by decide)).2.2⟩

/-! ## Reconciliation: the order of the calls -/

/-- When an issued call fails, the log ends with that call and the zone is the effect of
the calls before it. -/
theorem runPlan_failed_call_state (cs : List Call) (w : Cloud) (k : Nat) (e : Error)
    (h1 : w.log.length ≤ k) (h2 : k < (runPlan cs w).2.log.length) (h3 : w.fails k = some e) :
    (runPlan cs w).2.log = w.log ++ cs.take (k + 1 - w.log.length) ∧
    (runPlan cs w).2.zone = (cs.take (k - w.log.length)).foldl Call.effect w.zone := by
  obtain ⟨m, hm, hk, hz, hr⟩ := runPlan_shape cs w
  rcases hr with ⟨-, h5, h6⟩ | ⟨e1, h4, h5, h6, h7⟩
  · rw [h6, List.length_append] at h2
    have := hk (k - w.log.length) (by omega)
    rw [show w.log.length + (k - w.log.length) = k by omega, h3] at this
    cases this
  · rw [h7, List.length_append, List.length_take] at h2
    have hkm : k = w.log.length + m := by
      by_contra hne
      have := hk (k - w.log.length) (by omega)
      rw [show w.log.length + (k - w.log.length) = k by omega, h3] at this
      cases this
    subst hkm
    rw [show w.log.length + m + 1 - w.log.length = m + 1 by omega,
      show w.log.length + m - w.log.length = m by omega]
    exact ⟨h7, hz⟩

theorem setDNS_withoutFailures_issued (ipv4 ipv6 : List String) (w : Cloud) :
    issued w.withoutFailures (setDNS ipv4 ipv6 w.withoutFailures).2 =
      Call.ListDomainRecords :: mutationPlan ipv4 ipv6 w.zone :=
  (setDNS_success ipv4 ipv6 w.withoutFailures
    (setDNS_no_failure ipv4 ipv6 w.withoutFailures (fun _ => rfl))).2

/-- C11 (abort on first failure): if the call number `k` is issued by `setDNS` and fails
with the error `e`, then `setDNS` returns `e`, the failed call is the last call it
issues, the calls it has issued are the first calls of the run in which no call fails
(same zone, same desired pair), and the zone is the effect of the calls before the
failed one. -/
theorem setDNS_aborts_on_first_failure (ipv4 ipv6 : List String) (w : Cloud) (k : Nat)
    (e : Error) (h1 : w.log.length ≤ k) (h2 : k < (setDNS ipv4 ipv6 w).2.log.length)
    (h3 : w.fails k = some e) :
    (setDNS ipv4 ipv6 w).1 = some e ∧
    (setDNS ipv4 ipv6 w).2.log.length = k + 1 ∧
    issued w (setDNS ipv4 ipv6 w).2 =
      (issued w.withoutFailures (setDNS ipv4 ipv6 w.withoutFailures).2).take
        (k + 1 - w.log.length) ∧
    (setDNS ipv4 ipv6 w).2.zone =
      ((issued w.withoutFailures (setDNS ipv4 ipv6 w.withoutFailures).2).take
        (k - w.log.length)).foldl Call.effect w.zone := by
  rw [setDNS_withoutFailures_issued]
  rw [setDNS_eq_runPlan] at h2 ⊢
  obtain ⟨ha, hb⟩ := runPlan_failed_call _ w k e h1 h2 h3
  obtain ⟨hc, hd⟩ := runPlan_failed_call_state _ w k e h1 h2 h3
  exact ⟨ha, hb, by simp [issued, hc], hd⟩

theorem setDNS_aborts_on_first_failure_witness :
    (sampleCloud sampleZone (failAt 2)).log.length ≤ 2 ∧
    2 < (setDNS ["1.1.1.1", "3.3.3.3"] ["::7"] (sampleCloud sampleZone (failAt 2))).2.log.length ∧
    (sampleCloud sampleZone (failAt 2)).fails 2 = some { msg := "provider error" } ∧
    (setDNS ["1.1.1.1", "3.3.3.3"] ["::7"] (sampleCloud sampleZone (failAt 2))).1 =
      some { msg := "provider error" } ∧
    (setDNS ["1.1.1.1", "3.3.3.3"] ["::7"] (sampleCloud sampleZone (failAt 2))).2.log.length =
      2 + 1 :=
  ⟨by decide, by decide, by decide,
    (setDNS_aborts_on_first_failure ["1.1.1.1", "3.3.3.3"] ["::7"]
      (sampleCloud sampleZone (failAt 2)) 2 { msg := "provider error" }
      (by decide) (by decide) (by decide)).1,
    (setDNS_aborts_on_first_failure ["1.1.1.1", "3.3.3.3"] ["::7"]
      (sampleCloud sampleZone (failAt 2)) 2 { msg := "provider error" }
      (by decide) (by decide) (by decide)).2.1⟩

theorem mutationPlan_pairwise (ipv4 ipv6 : List String) (zone : List DomainRecord) :
    (Call.ListDomainRecords :: mutationPlan ipv4 ipv6 zone).Pairwise
      (fun c1 c2 => ¬ (c1.isCreate = true ∧ c2.isDelete = true)) := by
  have hd : ∀ c, c ∈ deletePlan ipv4 ipv6 zone → c.isCreate = false := by
    intro c hc
    simp only [deletePlan, List.mem_map] at hc
    obtain ⟨i, -, rfl⟩ := hc
    rfl
  have hc : ∀ c, c ∈ createPlan RecordTypeA (keptTargets RecordTypeA ipv4 zone) ipv4 ++
      createPlan RecordTypeAAAA (keptTargets RecordTypeAAAA ipv6 zone) ipv6 →
      c.isDelete = false := by
    intro c hc
    simp only [createPlan, List.mem_append, List.mem_map] at hc
    rcases hc with ⟨o, -, rfl⟩ | ⟨o, -, rfl⟩ <;> rfl
  rw [List.pairwise_cons]
  refine ⟨fun c _ h => by simp [Call.isCreate] at h, ?_⟩
  rw [mutationPlan, List.pairwise_append]
  refine ⟨?_, ?_, ?_⟩
  · exact List.pairwise_of_forall_mem_list (fun a ha b _ h => by simp [hd a ha] at h)
  · exact List.pairwise_of_forall_mem_list (fun a _ b hb h => by simp [hc b hb] at h)
  · intro a ha b _ h
    simp [hd a ha] at h

/-- C12 (deletions before creations): in the sequence of calls issued by any run of
`setDNS`, whether or not calls fail, no create comes before a delete: for any two
positions, the earlier call is not a create while the later one is a delete. -/
theorem setDNS_deletes_before_creates (ipv4 ipv6 : List String) (w : Cloud) :
    (issued w (setDNS ipv4 ipv6 w).2).Pairwise
      (fun c1 c2 => ¬ (c1.isCreate = true ∧ c2.isDelete = true)) := by
  rw [setDNS_eq_runPlan]
  obtain ⟨n, -, hn, -⟩ :=
    runPlan_issued (Call.ListDomainRecords :: mutationPlan ipv4 ipv6 w.zone) w
  rw [hn]
  exact (mutationPlan_pairwise ipv4 ipv6 w.zone).sublist (List.take_sublist _ _)

theorem setDNS_ok_issued (ipv4 ipv6 : List String) (w : Cloud)
    (hok : AllCallsSucceed w (setDNS ipv4 ipv6 w).2) :
    issued w (setDNS ipv4 ipv6 w).2 = Call.ListDomainRecords :: mutationPlan ipv4 ipv6 w.zone :=
  (setDNS_success ipv4 ipv6 w (setDNS_ok_of_allCallsSucceed ipv4 ipv6 w hok)).2

/-- C13 (exact operation plan): when every call that `setDNS` issues succeeds, the calls
are the list call followed by (1) in listing order one delete for each apex `A` record
whose target is not an entry of `ipv4` and each apex `AAAA` record whose target is not an
entry of `ipv6`, then (2) in sequence order one `A` create for each entry of `ipv4` that
is not the target of a kept apex `A` record, then one `AAAA` create for each entry of
`ipv6` that is not the target of a kept apex `AAAA` record. -/
theorem setDNS_exact_plan (ipv4 ipv6 : List String) (w : Cloud)
    (hok : AllCallsSucceed w (setDNS ipv4 ipv6 w).2) :
    issued w (setDNS ipv4 ipv6 w).2 =
      Call.ListDomainRecords ::
        ((w.zone.filter (fun r =>
            (isApex RecordTypeA r && decide (¬ r.Target ∈ ipv4)) ||
              (isApex RecordTypeAAAA r && decide (¬ r.Target ∈ ipv6)))).map
            (fun r => Call.DeleteDomainRecord r.ID) ++
          ((ipv4.filter (fun ip => decide (¬ ip ∈
              (apexTargets RecordTypeA w.zone).filter (fun t => decide (t ∈ ipv4))))).map
            (fun ip => Call.CreateDomainRecord
              { Name := "", Type_ := RecordTypeA, Target := ip }) ++
           (ipv6.filter (fun ip => decide (¬ ip ∈
              (apexTargets RecordTypeAAAA w.zone).filter (fun t => decide (t ∈ ipv6))))).map
            (fun ip => Call.CreateDomainRecord
              { Name := "", Type_ := RecordTypeAAAA, Target := ip }))) := by
  rw [setDNS_ok_issued ipv4 ipv6 w hok]
  simp only [mutationPlan, deletePlan, staleIDs, createPlan, createOptions, keptTargets,
    List.map_map]
  rfl

theorem setDNS_exact_plan_witness :
    AllCallsSucceed (sampleCloud pairZone noFailure)
      (setDNS ["1.1.1.1", "3.3.3.3"] [] (sampleCloud pairZone noFailure)).2 ∧
    issued (sampleCloud pairZone noFailure)
        (setDNS ["1.1.1.1", "3.3.3.3"] [] (sampleCloud pairZone noFailure)).2 =
      [Call.ListDomainRecords, Call.DeleteDomainRecord 2,
       Call.CreateDomainRecord { Name := "", Type_ := "A", Target := "3.3.3.3" }] :=
  ⟨fun _ _ _ => rfl,
    (setDNS_exact_plan ["1.1.1.1", "3.3.3.3"] [] (sampleCloud pairZone noFailure)
      (fun _ _ _ => rfl)).trans (by decide)⟩

/-! ## Observation: content and order independence -/

theorem runPlan_ok_of_allCallsSucceed (cs : List Call) (w : Cloud)
    (h : AllCallsSucceed w (runPlan cs w).2) : (runPlan cs w).1 = none := by
  obtain ⟨m, -, -, -, hr⟩ := runPlan_shape cs w
  rcases hr with ⟨h1, -⟩ | ⟨e, -, h2, h3, h4⟩
  · exact h1
  · have := h (w.log.length + m) (by omega) (by
      rw [h4, List.length_append, List.length_take]; omega)
    rw [this] at h2; cases h2

theorem getIPs_ok_of_allCallsSucceed (w : Cloud) (h : AllCallsSucceed w (getIPs w).2) :
    (getIPs w).1.2.2 = none := by
  rw [getIPs_state] at h
  rw [getIPs_err]
  exact runPlan_ok_of_allCallsSucceed _ w h

theorem sortStrings_sorted (xs : List String) : (sortStrings xs).Sorted (· ≤ ·) := by
  have ht : IsTotal String (fun a b => a.data ≤ b.data) := ⟨fun a b => le_total a.data b.data⟩
  have hr : IsTrans String (fun a b => a.data ≤ b.data) :=
    ⟨fun a b c hab hbc => le_trans hab hbc⟩
  have hs := List.sorted_insertionSort (fun a b : String => a.data ≤ b.data) xs
  exact List.Pairwise.imp (fun {a b} hab => String.le_iff_toList_le.mpr hab) hs

theorem sortStrings_eq_of_perm (xs ys : List String) (h : xs.Perm ys) :
    sortStrings xs = sortStrings ys := by
  have ha : IsAntisymm String (· ≤ ·) := ⟨fun a b hab hba => le_antisymm hab hba⟩
  exact List.eq_of_perm_of_sorted
    (((sortStrings_perm xs).trans h).trans (sortStrings_perm ys).symm)
    (sortStrings_sorted xs) (sortStrings_sorted ys)

/-- C14 (observation content): when every call that `getIPs` issues succeeds, `getIPs`
returns no error; its first sequence is sorted in ascending lexicographic order and is a
rearrangement of the public IPv4 addresses of all nodes of the pool, node after node;
its second sequence is sorted likewise and is a rearrangement of the SLAAC addresses of
exactly the nodes whose SLAAC address is public. -/
theorem getIPs_content (w : Cloud) (hok : AllCallsSucceed w (getIPs w).2) :
    (getIPs w).1.2.2 = none ∧
    (getIPs w).1.1.Sorted (· ≤ ·) ∧
    (getIPs w).1.1.Perm
      (w.pool.Linodes.flatMap
        (fun l => (w.addresses l.InstanceID).IPv4.Public.map (fun ip => ip.Address))) ∧
    (getIPs w).1.2.1.Sorted (· ≤ ·) ∧
    (getIPs w).1.2.1.Perm
      ((w.pool.Linodes.filter (fun l => (w.addresses l.InstanceID).IPv6.SLAAC.Public)).map
        (fun l => (w.addresses l.InstanceID).IPv6.SLAAC.Address)) := by
  have h0 := getIPs_ok_of_allCallsSucceed w hok
  rw [getIPs_ok w h0]
  exact ⟨rfl, sortStrings_sorted _, sortStrings_perm _, sortStrings_sorted _,
    sortStrings_perm _⟩

theorem getIPs_content_witness :
    AllCallsSucceed (sampleCloud sampleZone noFailure)
      (getIPs (sampleCloud sampleZone noFailure)).2 ∧
    (getIPs (sampleCloud sampleZone noFailure)).1.1.Sorted (· ≤ ·) ∧
    (getIPs (sampleCloud sampleZone noFailure)).1 =
      (["1.1.1.1", "2.2.2.2", "3.3.3.3"], ["::7"], none) :=
  ⟨fun _ _ _ => rfl,
    (getIPs_content (sampleCloud sampleZone noFailure) (fun _ _ _ => rfl)).2.1, by decide⟩

theorem reportedIPv4_perm (w1 w2 : Cloud) (hp : w1.pool.Linodes.Perm w2.pool.Linodes)
    (h4 : ∀ l, l ∈ w1.pool.Linodes →
      (w1.addresses l.InstanceID).IPv4.Public.Perm (w2.addresses l.InstanceID).IPv4.Public) :
    (reportedIPv4 w1).Perm (reportedIPv4 w2) := by
  unfold reportedIPv4
  exact (List.Perm.flatMap_left _ (fun l hl => (h4 l hl).map _)).trans
    (List.Perm.flatMap_right _ hp)

theorem reportedIPv6_perm (w1 w2 : Cloud) (hp : w1.pool.Linodes.Perm w2.pool.Linodes)
    (h6 : ∀ l, l ∈ w1.pool.Linodes →
      (w1.addresses l.InstanceID).IPv6 = (w2.addresses l.InstanceID).IPv6) :
    (reportedIPv6 w1).Perm (reportedIPv6 w2) := by
  unfold reportedIPv6
  have hf : w1.pool.Linodes.filter (fun l => (w1.addresses l.InstanceID).IPv6.SLAAC.Public) =
      w1.pool.Linodes.filter (fun l => (w2.addresses l.InstanceID).IPv6.SLAAC.Public) :=
    List.filter_congr (fun l hl => by rw [h6 l hl])
  have hm : (w1.pool.Linodes.filter
      (fun l => (w2.addresses l.InstanceID).IPv6.SLAAC.Public)).map
        (fun l => (w1.addresses l.InstanceID).IPv6.SLAAC.Address) =
      (w1.pool.Linodes.filter
      (fun l => (w2.addresses l.InstanceID).IPv6.SLAAC.Public)).map
        (fun l => (w2.addresses l.InstanceID).IPv6.SLAAC.Address) :=
    List.map_congr_left (fun l hl => by rw [h6 l (List.mem_of_mem_filter hl)])
  rw [hf, hm]
  exact (hp.filter _).map _

/-- C15 (order independence of observation): if the node listings of two states of the
provider are rearrangements of one another and every listed node has the same address
response in both, up to the order of its public IPv4 addresses, then two successful
runs of `getIPs` return the same sequences, and the fingerprints computed from them are
the same string. -/
theorem getIPs_order_independent (w1 w2 : Cloud)
    (hp : w1.pool.Linodes.Perm w2.pool.Linodes)
    (h4 : ∀ l, l ∈ w1.pool.Linodes →
      (w1.addresses l.InstanceID).IPv4.Public.Perm (w2.addresses l.InstanceID).IPv4.Public)
    (h6 : ∀ l, l ∈ w1.pool.Linodes →
      (w1.addresses l.InstanceID).IPv6 = (w2.addresses l.InstanceID).IPv6)
    (hok1 : (getIPs w1).1.2.2 = none) (hok2 : (getIPs w2).1.2.2 = none) :
    (getIPs w1).1 = (getIPs w2).1 ∧
    fingerprint (getIPs w1).1.1 (getIPs w1).1.2.1 =
      fingerprint (getIPs w2).1.1 (getIPs w2).1.2.1 := by
  have h : (getIPs w1).1 = (getIPs w2).1 := by
    rw [getIPs_ok w1 hok1, getIPs_ok w2 hok2,
      sortStrings_eq_of_perm _ _ (reportedIPv4_perm w1 w2 hp h4),
      sortStrings_eq_of_perm _ _ (reportedIPv6_perm w1 w2 hp h6)]
  exact ⟨h, by rw [h]⟩

theorem getIPs_order_independent_witness :
    (sampleCloud sampleZone noFailure).pool.Linodes.Perm shuffledCloud.pool.Linodes ∧
    (getIPs (sampleCloud sampleZone noFailure)).1.2.2 = none ∧
    (getIPs shuffledCloud).1.2.2 = none ∧
    (getIPs (sampleCloud sampleZone noFailure)).1 = (getIPs shuffledCloud).1 :=
  ⟨by decide, by decide, by decide,
    (getIPs_order_independent (sampleCloud sampleZone noFailure) shuffledCloud
      (by decide) (by decide) (by decide) (by decide) (by decide)).1⟩

/-! ## Reconciliation: the two families do not influence one another -/

theorem apexTargets_eq_recordsOfType (ty : String) (zone : List DomainRecord) :
    apexTargets ty zone =
      ((recordsOfType ty zone).filter (fun r => decide (r.Name = ""))).map
        (fun r => r.Target) := by
  unfold apexTargets recordsOfType
  rw [List.filter_filter]
  congr 1
  apply List.filter_congr
  intro r _
  simp [isApex, Bool.and_comm]

theorem keptTargets_eq_recordsOfType (ty : String) (D : List String)
    (zone : List DomainRecord) :
    createOptions ty (keptTargets ty D zone) D = familyCreates ty D (recordsOfType ty zone) := by
  rw [familyCreates, keptTargets, apexTargets_eq_recordsOfType]

theorem deletePlan_filter_forType (ty : String) (D ipv4 ipv6 : List String)
    (zone : List DomainRecord) (hu : UniqueIDs zone)
    (hst : ∀ r : DomainRecord, r.Type_ = ty →
      isStale ipv4 ipv6 r = decide (r.Name = "" ∧ ¬ r.Target ∈ D)) :
    (deletePlan ipv4 ipv6 zone).filter (Call.forType ty zone) =
      familyDeletes D (recordsOfType ty zone) := by
  unfold deletePlan staleIDs familyDeletes
  rw [List.map_map, List.filter_map, List.filter_filter]
  congr 1
  unfold recordsOfType
  rw [List.filter_filter]
  apply List.filter_congr
  intro r hr
  by_cases ht : r.Type_ = ty
  · have hm : r.ID ∈ (zone.filter (fun r => decide (r.Type_ = ty))).map (fun r => r.ID) :=
      List.mem_map.mpr ⟨r, List.mem_filter.mpr ⟨hr, by simpa using ht⟩, rfl⟩
    simp only [Function.comp_apply, Call.forType, recordsOfType, hm, decide_True,
      Bool.true_and, hst r ht, ht, Bool.and_true]
  · have hm : ¬ r.ID ∈ (zone.filter (fun r => decide (r.Type_ = ty))).map (fun r => r.ID) :=
      fun h => ht (by simpa using id_mem_filter_of_unique zone hu _ r hr h)
    simp only [Function.comp_apply, Call.forType, recordsOfType, hm, decide_False,
      Bool.false_and, ht, Bool.and_false]

theorem recordsOfType_append (ty : String) (a b : List DomainRecord) :
    recordsOfType ty (a ++ b) = recordsOfType ty a ++ recordsOfType ty b := by
  simp [recordsOfType]

theorem recordsOfType_createdRecords (ty : String) (os : List DomainRecordCreateOptions)
    (zone : List DomainRecord) :
    (recordsOfType ty (createdRecords zone os)).map DomainRecord.content =
      os.filter (fun o => decide (o.Type_ = ty)) := by
  have h : (createdRecords zone os).map DomainRecord.content = os := createdRecords_map os zone
  calc (recordsOfType ty (createdRecords zone os)).map DomainRecord.content
      = ((createdRecords zone os).map DomainRecord.content).filter
          (fun o => decide (o.Type_ = ty)) := by rw [List.filter_map]; rfl
    _ = os.filter (fun o => decide (o.Type_ = ty)) := by rw [h]

/-- What a run of `setDNS` without failure does to one family, in terms of the records
of that type and the desired sequence of that type only. -/
theorem setDNS_family (ty : String) (D ipv4 ipv6 : List String) (w : Cloud)
    (hu : UniqueIDs w.zone) (hok : (setDNS ipv4 ipv6 w).1 = none)
    (hst : ∀ r : DomainRecord, r.Type_ = ty →
      isStale ipv4 ipv6 r = decide (r.Name = "" ∧ ¬ r.Target ∈ D))
    (hcr : (createOptions RecordTypeA (keptTargets RecordTypeA ipv4 w.zone) ipv4 ++
        createOptions RecordTypeAAAA (keptTargets RecordTypeAAAA ipv6 w.zone) ipv6).filter
          (fun o => decide (o.Type_ = ty)) = familyCreates ty D (recordsOfType ty w.zone)) :
    (issued w (setDNS ipv4 ipv6 w).2).filter (Call.forType ty w.zone) =
      familyDeletes D (recordsOfType ty w.zone) ++
        (familyCreates ty D (recordsOfType ty w.zone)).map Call.CreateDomainRecord ∧
    ∃ new, recordsOfType ty (setDNS ipv4 ipv6 w).2.zone =
        familyKept D (recordsOfType ty w.zone) ++ new ∧
      new.map DomainRecord.content = familyCreates ty D (recordsOfType ty w.zone) := by
  obtain ⟨hz, hi⟩ := setDNS_success ipv4 ipv6 w hok
  constructor
  · rw [hi, List.filter_cons, mutationPlan, List.filter_append,
      deletePlan_filter_forType ty D ipv4 ipv6 w.zone hu hst, createPlan, createPlan,
      ← List.map_append, List.filter_map, ← hcr]
    simp only [Call.forType, Bool.false_eq_true, if_false]
    rfl
  · rw [hz, filter_staleIDs ipv4 ipv6 w.zone hu, recordsOfType_append]
    refine ⟨recordsOfType ty (createdRecords (w.zone.filter (fun r => ! isStale ipv4 ipv6 r))
      (createOptions RecordTypeA (keptTargets RecordTypeA ipv4 w.zone) ipv4 ++
        createOptions RecordTypeAAAA (keptTargets RecordTypeAAAA ipv6 w.zone) ipv6)), ?_, ?_⟩
    · congr 1
      unfold recordsOfType familyKept
      rw [List.filter_filter, List.filter_filter]
      apply List.filter_congr
      intro r _
      by_cases ht : r.Type_ = ty
      · simp only [ht, decide_True, Bool.true_and, Bool.and_true, hst r ht]
      · simp only [ht, decide_False, Bool.false_and, Bool.and_false]
    · rw [recordsOfType_createdRecords, hcr]

theorem isStale_of_type_A (ipv4 ipv6 : List String) (r : DomainRecord)
    (h : r.Type_ = RecordTypeA) :
    isStale ipv4 ipv6 r = decide (r.Name = "" ∧ ¬ r.Target ∈ ipv4) := by
  simp [isStale, isApex, h, RecordTypeA_ne_AAAA, Bool.decide_and]

theorem isStale_of_type_AAAA (ipv4 ipv6 : List String) (r : DomainRecord)
    (h : r.Type_ = RecordTypeAAAA) :
    isStale ipv4 ipv6 r = decide (r.Name = "" ∧ ¬ r.Target ∈ ipv6) := by
  simp [isStale, isApex, h, Ne.symm RecordTypeA_ne_AAAA, Bool.decide_and]

theorem createOptions_filter_type_same (ty : String) (exist ips : List String) :
    (createOptions ty exist ips).filter (fun o => decide (o.Type_ = ty)) =
      createOptions ty exist ips := by
  rw [List.filter_eq_self]
  intro o ho
  simpa using (mem_createOptions ty exist ips o ho).2.1

theorem createOptions_filter_type_other (ty ty2 : String) (h : ty2 ≠ ty)
    (exist ips : List String) :
    (createOptions ty2 exist ips).filter (fun o => decide (o.Type_ = ty)) = [] := by
  rw [List.filter_eq_nil_iff]
  intro o ho
  have := (mem_createOptions ty2 exist ips o ho).2.1
  simpa [this] using h

theorem setDNS_family_A (ipv4 ipv6 : List String) (w : Cloud) (hu : UniqueIDs w.zone)
    (hok : (setDNS ipv4 ipv6 w).1 = none) :
    (issued w (setDNS ipv4 ipv6 w).2).filter (Call.forType RecordTypeA w.zone) =
      familyDeletes ipv4 (recordsOfType RecordTypeA w.zone) ++
        (familyCreates RecordTypeA ipv4 (recordsOfType RecordTypeA w.zone)).map
          Call.CreateDomainRecord ∧
    ∃ new, recordsOfType RecordTypeA (setDNS ipv4 ipv6 w).2.zone =
        familyKept ipv4 (recordsOfType RecordTypeA w.zone) ++ new ∧
      new.map DomainRecord.content =
        familyCreates RecordTypeA ipv4 (recordsOfType RecordTypeA w.zone) := by
  apply setDNS_family RecordTypeA ipv4 ipv4 ipv6 w hu hok (isStale_of_type_A ipv4 ipv6)
  rw [List.filter_append, createOptions_filter_type_same,
    createOptions_filter_type_other _ _ (Ne.symm RecordTypeA_ne_AAAA), List.append_nil,
    keptTargets_eq_recordsOfType]

theorem setDNS_family_AAAA (ipv4 ipv6 : List String) (w : Cloud) (hu : UniqueIDs w.zone)
    (hok : (setDNS ipv4 ipv6 w).1 = none) :
    (issued w (setDNS ipv4 ipv6 w).2).filter (Call.forType RecordTypeAAAA w.zone) =
      familyDeletes ipv6 (recordsOfType RecordTypeAAAA w.zone) ++
        (familyCreates RecordTypeAAAA ipv6 (recordsOfType RecordTypeAAAA w.zone)).map
          Call.CreateDomainRecord ∧
    ∃ new, recordsOfType RecordTypeAAAA (setDNS ipv4 ipv6 w).2.zone =
        familyKept ipv6 (recordsOfType RecordTypeAAAA w.zone) ++ new ∧
      new.map DomainRecord.content =
        familyCreates RecordTypeAAAA ipv6 (recordsOfType RecordTypeAAAA w.zone) := by
  apply setDNS_family RecordTypeAAAA ipv6 ipv4 ipv6 w hu hok (isStale_of_type_AAAA ipv4 ipv6)
  rw [List.filter_append, createOptions_filter_type_same,
    createOptions_filter_type_other _ _ RecordTypeA_ne_AAAA, List.nil_append,
    keptTargets_eq_recordsOfType]

/-- C16 (family independence): take two runs of `setDNS` in which every issued call
succeeds, on zones with pairwise distinct record identifiers.  If the runs have the same
`ipv4` and the zones have the same `A` records, then the deletes of `A` records and the
creates of type `A` that the two runs issue are the same sequence, and the `A` records
of the two resulting zones are the same kept records followed by new records that agree
in name, type and target (their identifiers are given by the provider), whatever `ipv6`
and the other records are.  The same holds for `AAAA` and `ipv6`. -/
theorem setDNS_family_independent (ipv4a ipv6a ipv4b ipv6b : List String) (wa wb : Cloud)
    (hua : UniqueIDs wa.zone) (hub : UniqueIDs wb.zone)
    (hoka : AllCallsSucceed wa (setDNS ipv4a ipv6a wa).2)
    (hokb : AllCallsSucceed wb (setDNS ipv4b ipv6b wb).2) :
    (ipv4a = ipv4b → recordsOfType RecordTypeA wa.zone = recordsOfType RecordTypeA wb.zone →
      (issued wa (setDNS ipv4a ipv6a wa).2).filter (Call.forType RecordTypeA wa.zone) =
        (issued wb (setDNS ipv4b ipv6b wb).2).filter (Call.forType RecordTypeA wb.zone) ∧
      ∃ kept newa newb,
        recordsOfType RecordTypeA (setDNS ipv4a ipv6a wa).2.zone = kept ++ newa ∧
        recordsOfType RecordTypeA (setDNS ipv4b ipv6b wb).2.zone = kept ++ newb ∧
        newa.map DomainRecord.content = newb.map DomainRecord.content) ∧
    (ipv6a = ipv6b →
      recordsOfType RecordTypeAAAA wa.zone = recordsOfType RecordTypeAAAA wb.zone →
      (issued wa (setDNS ipv4a ipv6a wa).2).filter (Call.forType RecordTypeAAAA wa.zone) =
        (issued wb (setDNS ipv4b ipv6b wb).2).filter (Call.forType RecordTypeAAAA wb.zone) ∧
      ∃ kept newa newb,
        recordsOfType RecordTypeAAAA (setDNS ipv4a ipv6a wa).2.zone = kept ++ newa ∧
        recordsOfType RecordTypeAAAA (setDNS ipv4b ipv6b wb).2.zone = kept ++ newb ∧
        newa.map DomainRecord.content = newb.map DomainRecord.content) := by
  have h0a := setDNS_ok_of_allCallsSucceed ipv4a ipv6a wa hoka
  have h0b := setDNS_ok_of_allCallsSucceed ipv4b ipv6b wb hokb
  constructor
  · intro hip hrec
    obtain ⟨ha1, na, ha2, ha3⟩ := setDNS_family_A ipv4a ipv6a wa hua h0a
    obtain ⟨hb1, nb, hb2, hb3⟩ := setDNS_family_A ipv4b ipv6b wb hub h0b
    refine ⟨by rw [ha1, hb1, hip, hrec], familyKept ipv4a (recordsOfType RecordTypeA wa.zone),
      na, nb, ha2, ?_, ?_⟩
    · rw [hb2, hip, hrec]
    · rw [ha3, hb3, hip, hrec]
  · intro hip hrec
    obtain ⟨ha1, na, ha2, ha3⟩ := setDNS_family_AAAA ipv4a ipv6a wa hua h0a
    obtain ⟨hb1, nb, hb2, hb3⟩ := setDNS_family_AAAA ipv4b ipv6b wb hub h0b
    refine ⟨by rw [ha1, hb1, hip, hrec],
      familyKept ipv6a (recordsOfType RecordTypeAAAA wa.zone), na, nb, ha2, ?_, ?_⟩
    · rw [hb2, hip, hrec]
    · rw [ha3, hb3, hip, hrec]

theorem setDNS_family_independent_witness :
    UniqueIDs (sampleCloud sampleZone noFailure).zone ∧
    UniqueIDs (sampleCloud otherZone noFailure).zone ∧
    AllCallsSucceed (sampleCloud sampleZone noFailure)
      (setDNS ["1.1.1.1", "3.3.3.3"] ["::7"] (sampleCloud sampleZone noFailure)).2 ∧
    AllCallsSucceed (sampleCloud otherZone noFailure)
      (setDNS ["1.1.1.1", "3.3.3.3"] [] (sampleCloud otherZone noFailure)).2 ∧
    recordsOfType RecordTypeA (sampleCloud sampleZone noFailure).zone =
      recordsOfType RecordTypeA (sampleCloud otherZone noFailure).zone ∧
    (issued (sampleCloud sampleZone noFailure)
        (setDNS ["1.1.1.1", "3.3.3.3"] ["::7"] (sampleCloud sampleZone noFailure)).2).filter
          (Call.forType RecordTypeA (sampleCloud sampleZone noFailure).zone) =
      (issued (sampleCloud otherZone noFailure)
        (setDNS ["1.1.1.1", "3.3.3.3"] [] (sampleCloud otherZone noFailure)).2).filter
          (Call.forType RecordTypeA (sampleCloud otherZone noFailure).zone) :=
  ⟨by decide, by decide, fun _ _ _ => rfl, fun _ _ _ => rfl, by decide,
    ((setDNS_family_independent ["1.1.1.1", "3.3.3.3"] ["::7"] ["1.1.1.1", "3.3.3.3"] []
      (sampleCloud sampleZone noFailure) (sampleCloud otherZone noFailure)
      (by decide) (by decide) (fun _ _ _ => rfl) (fun _ _ _ => rfl)).1 rfl (by decide)).1⟩

/-! ## The fingerprint determines the snapshot -/

theorem intercalate_go_data (acc : String) (l : List String) :
    (String.intercalate.go acc "," l).data = acc.data ++ commaTail (l.map String.data) := by
  induction l generalizing acc with
  | nil => simp [String.intercalate.go, commaTail]
  | cons a rest ih =>
    rw [String.intercalate.go, ih]
    simp [commaTail, String.data_append]

theorem stringsJoin_data (l : List String) :
    (stringsJoin l ",").data = joinComma (l.map String.data) := by
  cases l with
  | nil => rfl
  | cons a rest => simp [stringsJoin, String.intercalate, intercalate_go_data, joinComma]

theorem fingerprint_data (ipv4 ipv6 : List String) :
    (fingerprint ipv4 ipv6).data =
      joinComma (ipv4.map String.data) ++ ',' :: joinComma (ipv6.map String.data) := by
  simp [fingerprint, String.data_append, stringsJoin_data]

theorem splitComma_ne_nil (cs : List Char) : splitComma cs ≠ [] := by
  cases cs with
  | nil => simp [splitComma]
  | cons c cs =>
    rw [splitComma]
    split
    · simp
    · split <;> simp

theorem splitComma_of_no_comma (t : List Char) (h : ¬ ',' ∈ t) : splitComma t = [t] := by
  induction t with
  | nil => rfl
  | cons c cs ih =>
    have hc : c ≠ ',' := fun hc => h (by simp [hc])
    have hcs : ¬ ',' ∈ cs := fun hcs => h (List.mem_cons_of_mem _ hcs)
    rw [splitComma, if_neg hc, ih hcs]

theorem splitComma_append_comma (x y : List Char) :
    splitComma (x ++ ',' :: y) = splitComma x ++ splitComma y := by
  induction x with
  | nil => simp [splitComma]
  | cons c cs ih =>
    by_cases hc : c = ','
    · simp [splitComma, hc, ih]
    · rw [List.cons_append, splitComma, if_neg hc, ih, splitComma, if_neg hc]
      rcases hs : splitComma cs with _ | ⟨t, ts⟩
      · exact absurd hs (splitComma_ne_nil cs)
      · simp

theorem splitComma_commaTail (t : List Char) (rest : List (List Char)) (ht : ¬ ',' ∈ t)
    (hr : ∀ s, s ∈ rest → ¬ ',' ∈ s) : splitComma (t ++ commaTail rest) = t :: rest := by
  induction rest generalizing t with
  | nil => simpa [commaTail] using splitComma_of_no_comma t ht
  | cons s r ih =>
    rw [commaTail, splitComma_append_comma, splitComma_of_no_comma t ht,
      ih s (hr s (List.mem_cons_self _ _)) (fun x hx => hr x (List.mem_cons_of_mem _ hx))]
    rfl

theorem splitComma_joinComma (l : List (List Char)) (hl : ∀ s, s ∈ l → ¬ ',' ∈ s) :
    splitComma (joinComma l) = if l = [] then [[]] else l := by
  cases l with
  | nil => rfl
  | cons t rest =>
    rw [joinComma, splitComma_commaTail t rest (hl t (List.mem_cons_self _ _))
      (fun x hx => hl x (List.mem_cons_of_mem _ hx))]
    simp

/-- The pieces of the fingerprint text that come before the first piece that is empty
or has a colon are the IPv4 pieces. -/
theorem takeWhile_tokens (A4 A6 : List (List Char))
    (h4 : ∀ t, t ∈ A4 → t ≠ [] ∧ ¬ ',' ∈ t ∧ ¬ ':' ∈ t)
    (h6 : ∀ t, t ∈ A6 → ':' ∈ t ∧ ¬ ',' ∈ t) :
    (splitComma (joinComma A4 ++ ',' :: joinComma A6)).takeWhile
      (fun t => decide (t ≠ [] ∧ ¬ ':' ∈ t)) = A4 := by
  rw [splitComma_append_comma, splitComma_joinComma A4 (fun s hs => (h4 s hs).2.1),
    splitComma_joinComma A6 (fun s hs => (h6 s hs).2)]
  have htail : (if A6 = [] then [[]] else A6).takeWhile
      (fun t => decide (t ≠ [] ∧ ¬ ':' ∈ t)) = [] := by
    cases A6 with
    | nil => simp [List.takeWhile]
    | cons s r =>
      have := (h6 s (List.mem_cons_self _ _)).1
      simp [List.takeWhile, this]
  cases A4 with
  | nil => simp [List.takeWhile]
  | cons t r =>
    simp only [reduceCtorEq, if_false]
    rw [List.takeWhile_append_of_pos, htail, List.append_nil]
    intro a ha
    have := h4 a ha
    simpa using ⟨this.1, this.2.2⟩

theorem filter_tokens (A6 : List (List Char)) (h6 : ∀ t, t ∈ A6 → ':' ∈ t ∧ ¬ ',' ∈ t) :
    (splitComma (joinComma A6)).filter (fun t => decide (t ≠ [])) = A6 := by
  rw [splitComma_joinComma A6 (fun s hs => (h6 s hs).2)]
  cases A6 with
  | nil => simp
  | cons s r =>
    simp only [reduceCtorEq, if_false]
    rw [List.filter_eq_self]
    intro a ha
    have := (h6 a ha).1
    simp only [decide_eq_true_eq]
    intro h0
    rw [h0] at this
    simp at this

theorem tokens_injective (A4 A6 B4 B6 : List (List Char))
    (ha4 : ∀ t, t ∈ A4 → t ≠ [] ∧ ¬ ',' ∈ t ∧ ¬ ':' ∈ t)
    (ha6 : ∀ t, t ∈ A6 → ':' ∈ t ∧ ¬ ',' ∈ t)
    (hb4 : ∀ t, t ∈ B4 → t ≠ [] ∧ ¬ ',' ∈ t ∧ ¬ ':' ∈ t)
    (hb6 : ∀ t, t ∈ B6 → ':' ∈ t ∧ ¬ ',' ∈ t)
    (h : joinComma A4 ++ ',' :: joinComma A6 = joinComma B4 ++ ',' :: joinComma B6) :
    A4 = B4 ∧ A6 = B6 := by
  have h4 : A4 = B4 := by
    rw [← takeWhile_tokens A4 A6 ha4 ha6, ← takeWhile_tokens B4 B6 hb4 hb6, h]
  subst h4
  have hs := congrArg splitComma h
  rw [splitComma_append_comma, splitComma_append_comma] at hs
  have h6 := List.append_cancel_left hs
  refine ⟨rfl, ?_⟩
  rw [← filter_tokens A6 ha6, ← filter_tokens B6 hb6, h6]

theorem map_data_injective (a b : List String) (h : a.map String.data = b.map String.data) :
    a = b := by
  induction a generalizing b with
  | nil => cases b with
    | nil => rfl
    | cons _ _ => simp at h
  | cons x xs ih => cases b with
    | nil => simp at h
    | cons y ys =>
      simp only [List.map_cons, List.cons.injEq] at h
      rw [String.ext h.1, ih ys h.2]

theorem fingerprint_injective (a4 a6 b4 b6 : List String)
    (ha4 : ∀ s, s ∈ a4 → IPv4Entry s) (ha6 : ∀ s, s ∈ a6 → IPv6Entry s)
    (hb4 : ∀ s, s ∈ b4 → IPv4Entry s) (hb6 : ∀ s, s ∈ b6 → IPv6Entry s)
    (h : fingerprint a4 a6 = fingerprint b4 b6) : a4 = b4 ∧ a6 = b6 := by
  have hd := congrArg String.data h
  rw [fingerprint_data, fingerprint_data] at hd
  have conv4 : ∀ l : List String, (∀ s, s ∈ l → IPv4Entry s) →
      ∀ t, t ∈ l.map String.data → t ≠ [] ∧ ¬ ',' ∈ t ∧ ¬ ':' ∈ t := by
    intro l hl t ht
    obtain ⟨s, hs, rfl⟩ := List.mem_map.mp ht
    obtain ⟨h1, h2, h3⟩ := hl s hs
    exact ⟨fun h0 => h1 (String.ext h0), h2, h3⟩
  have conv6 : ∀ l : List String, (∀ s, s ∈ l → IPv6Entry s) →
      ∀ t, t ∈ l.map String.data → ':' ∈ t ∧ ¬ ',' ∈ t := by
    intro l hl t ht
    obtain ⟨s, hs, rfl⟩ := List.mem_map.mp ht
    exact hl s hs
  obtain ⟨h4, h6⟩ := tokens_injective _ _ _ _ (conv4 a4 ha4) (conv6 a6 ha6) (conv4 b4 hb4)
    (conv6 b6 hb6) hd
  exact ⟨map_data_injective _ _ h4, map_data_injective _ _ h6⟩

/-- C17 (fingerprint faithfulness): for two snapshots whose IPv4 entries are not empty
and have neither comma nor colon and whose IPv6 entries have a colon and no comma, equal
fingerprints mean equal snapshots.  So a pass whose stored fingerprint is that of the
snapshot `(a4, a6)` and which observes a different snapshot `(b4, b6)` does call
`setDNS`: `ListDomainRecords` is among the calls it issues after the observation. -/
theorem fingerprint_faithful (a4 a6 b4 b6 : List String)
    (ha4 : ∀ s, s ∈ a4 → IPv4Entry s) (ha6 : ∀ s, s ∈ a6 → IPv6Entry s)
    (hb4 : ∀ s, s ∈ b4 → IPv4Entry s) (hb6 : ∀ s, s ∈ b6 → IPv6Entry s) :
    (fingerprint a4 a6 = fingerprint b4 b6 → a4 = b4 ∧ a6 = b6) ∧
    (∀ w : Cloud, (getIPs w).1 = (b4, b6, none) → (a4, a6) ≠ (b4, b6) →
      Call.ListDomainRecords ∈ issued (getIPs w).2 (tick (fingerprint a4 a6) w).2) := by
  have hinj := fingerprint_injective a4 a6 b4 b6 ha4 ha6 hb4 hb6
  refine ⟨hinj, ?_⟩
  intro w hw hne
  have hok : (getIPs w).1.2.2 = none := by rw [hw]
  have hf : fingerprint (getIPs w).1.1 (getIPs w).1.2.1 ≠ fingerprint a4 a6 := by
    rw [hw]
    intro h
    obtain ⟨h1, h2⟩ := hinj h.symm
    exact hne (by rw [h1, h2])
  rw [tick_of_changed _ w hok hf]
  exact setDNS_issues_list _ _ _

theorem fingerprint_faithful_witness :
    (∀ s, s ∈ ["1.1.1.1", "2.2.2.2"] → IPv4Entry s) ∧ (∀ s, s ∈ ["::7"] → IPv6Entry s) ∧
    (∀ s, s ∈ ["1.1.1.1", "2.2.2.2", "3.3.3.3"] → IPv4Entry s) ∧
    (getIPs (sampleCloud sampleZone noFailure)).1 =
      (["1.1.1.1", "2.2.2.2", "3.3.3.3"], ["::7"], none) ∧
    Call.ListDomainRecords ∈ issued (getIPs (sampleCloud sampleZone noFailure)).2
      (tick (fingerprint ["1.1.1.1", "2.2.2.2"] ["::7"]) (sampleCloud sampleZone noFailure)).2 :=
  ⟨by decide, by decide, by decide, by decide,
    (fingerprint_faithful ["1.1.1.1", "2.2.2.2"] ["::7"] ["1.1.1.1", "2.2.2.2", "3.3.3.3"]
      ["::7"] (by decide) (by decide) (by decide) (by decide)).2
      (sampleCloud sampleZone noFailure) (by decide) (by decide)⟩

/-! ## Reconciliation: no duplicate records -/

theorem foldl_effect_take_mutationPlan (ipv4 ipv6 : List String) (zone : List DomainRecord)
    (m : Nat) :
    ((mutationPlan ipv4 ipv6 zone).take m).foldl Call.effect zone =
      zone.filter (fun r => decide (¬ r.ID ∈ (staleIDs ipv4 ipv6 zone).take m)) ++
        createdRecords
          (zone.filter (fun r => decide (¬ r.ID ∈ (staleIDs ipv4 ipv6 zone).take m)))
          ((createOptions RecordTypeA (keptTargets RecordTypeA ipv4 zone) ipv4 ++
            createOptions RecordTypeAAAA (keptTargets RecordTypeAAAA ipv6 zone) ipv6).take
              (m - (staleIDs ipv4 ipv6 zone).length)) := by
  rw [mutationPlan, List.take_append_eq_append_take, List.foldl_append, deletePlan,
    ← List.map_take, foldl_effect_deletes, createPlan, createPlan, ← List.map_append,
    ← List.map_take, foldl_effect_creates, List.length_map]

theorem apexTargets_filter_sublist (ty : String) (zone : List DomainRecord)
    (p : DomainRecord → Bool) :
    (apexTargets ty (zone.filter p)).Sublist (apexTargets ty zone) :=
  ((List.filter_sublist zone).filter _).map _

theorem mem_kept_of_not_stale (ty : String) (D ipv4 ipv6 : List String)
    (zone : List DomainRecord)
    (hst : ∀ r, isApex ty r = true → isStale ipv4 ipv6 r = decide (¬ r.Target ∈ D))
    (t : String)
    (ht : t ∈ apexTargets ty
      (zone.filter (fun r => decide (¬ r.ID ∈ staleIDs ipv4 ipv6 zone)))) :
    t ∈ keptTargets ty D zone := by
  obtain ⟨r, hr, ha, rfl⟩ := (mem_apexTargets _ _ _).mp ht
  obtain ⟨hz, hid⟩ := List.mem_filter.mp hr
  simp only [decide_eq_true_eq] at hid
  have hns : ¬ isStale ipv4 ipv6 r = true := fun hs =>
    hid (List.mem_map.mpr ⟨r, List.mem_filter.mpr ⟨hz, hs⟩, rfl⟩)
  rw [hst r ha] at hns
  rw [mem_keptTargets]
  exact ⟨(mem_apexTargets _ _ _).mpr ⟨r, hz, ha, rfl⟩, by simpa using hns⟩

/-- The targets of the apex records of one family stay pairwise distinct after any number
of mutations of the plan. -/
theorem apexTargets_nodup_after (ty : String) (D ipv4 ipv6 : List String)
    (zone : List DomainRecord) (m : Nat) (hE : (apexTargets ty zone).Nodup) (hD : D.Nodup)
    (hst : ∀ r, isApex ty r = true → isStale ipv4 ipv6 r = decide (¬ r.Target ∈ D))
    (hcr : ((createOptions RecordTypeA (keptTargets RecordTypeA ipv4 zone) ipv4 ++
        createOptions RecordTypeAAAA (keptTargets RecordTypeAAAA ipv6 zone) ipv6).filter
          (fun o => decide (o.Type_ = ty ∧ o.Name = ""))).map (fun o => o.Target) =
      D.filter (fun ip => decide (¬ ip ∈ keptTargets ty D zone))) :
    (apexTargets ty (((mutationPlan ipv4 ipv6 zone).take m).foldl Call.effect zone)).Nodup := by
  rw [foldl_effect_take_mutationPlan, apexTargets_append, apexTargets_createdRecords]
  by_cases hm : m ≤ (staleIDs ipv4 ipv6 zone).length
  · rw [Nat.sub_eq_zero_of_le hm]
    simpa using hE.sublist (apexTargets_filter_sublist ty zone _)
  · have hfull : (staleIDs ipv4 ipv6 zone).take m = staleIDs ipv4 ipv6 zone :=
      List.take_of_length_le (by omega)
    rw [hfull]
    have hsub : (((createOptions RecordTypeA (keptTargets RecordTypeA ipv4 zone) ipv4 ++
        createOptions RecordTypeAAAA (keptTargets RecordTypeAAAA ipv6 zone) ipv6).take
          (m - (staleIDs ipv4 ipv6 zone).length)).filter
            (fun o => decide (o.Type_ = ty ∧ o.Name = ""))).map (fun o => o.Target) |>.Sublist
        (D.filter (fun ip => decide (¬ ip ∈ keptTargets ty D zone))) := by
      rw [← hcr]
      exact ((List.take_sublist _ _).filter _).map _
    rw [List.nodup_append]
    refine ⟨hE.sublist (apexTargets_filter_sublist ty zone _),
      (hD.filter _).sublist hsub, ?_⟩
    intro t h1 h2
    have hk := mem_kept_of_not_stale ty D ipv4 ipv6 zone hst t h1
    have hn := List.mem_filter.mp (hsub.subset h2)
    simp only [decide_eq_true_eq] at hn
    exact hn.2 hk

theorem setDNS_zone_after_some_mutations (ipv4 ipv6 : List String) (w : Cloud) :
    ∃ m, (setDNS ipv4 ipv6 w).2.zone =
      ((mutationPlan ipv4 ipv6 w.zone).take m).foldl Call.effect w.zone := by
  rw [setDNS_eq_runPlan]
  obtain ⟨m, -, -, hz, -⟩ :=
    runPlan_shape (Call.ListDomainRecords :: mutationPlan ipv4 ipv6 w.zone) w
  cases m with
  | zero => exact ⟨0, by rw [hz]; rfl⟩
  | succ m => exact ⟨m, by rw [hz]; rfl⟩

theorem created_targets_A (ipv4 ipv6 : List String) (zone : List DomainRecord) :
    ((createOptions RecordTypeA (keptTargets RecordTypeA ipv4 zone) ipv4 ++
        createOptions RecordTypeAAAA (keptTargets RecordTypeAAAA ipv6 zone) ipv6).filter
          (fun o => decide (o.Type_ = RecordTypeA ∧ o.Name = ""))).map (fun o => o.Target) =
      ipv4.filter (fun ip => decide (¬ ip ∈ keptTargets RecordTypeA ipv4 zone)) := by
  rw [List.filter_append, List.map_append, createOptions_filter_same,
    createOptions_filter_other _ _ (Ne.symm RecordTypeA_ne_AAAA)]
  simp

theorem created_targets_AAAA (ipv4 ipv6 : List String) (zone : List DomainRecord) :
    ((createOptions RecordTypeA (keptTargets RecordTypeA ipv4 zone) ipv4 ++
        createOptions RecordTypeAAAA (keptTargets RecordTypeAAAA ipv6 zone) ipv6).filter
          (fun o => decide (o.Type_ = RecordTypeAAAA ∧ o.Name = ""))).map (fun o => o.Target) =
      ipv6.filter (fun ip => decide (¬ ip ∈ keptTargets RecordTypeAAAA ipv6 zone)) := by
  rw [List.filter_append, List.map_append, createOptions_filter_same,
    createOptions_filter_other _ _ RecordTypeA_ne_AAAA]
  simp

/-- C18 (no duplicate records): if the apex records of each family have pairwise
distinct targets and neither desired sequence has a repeated entry, then the apex
records of each family have pairwise distinct targets in the zone reached after any
number `m` of the mutations of the plan of `setDNS`, that is in every intermediate
state; the zone that a run of `setDNS` leaves, whether or not a call failed, is one of
these zones, so it has the property too. -/
theorem setDNS_no_duplicates (ipv4 ipv6 : List String) (w : Cloud)
    (hE4 : (apexTargets RecordTypeA w.zone).Nodup)
    (hE6 : (apexTargets RecordTypeAAAA w.zone).Nodup)
    (hD4 : ipv4.Nodup) (hD6 : ipv6.Nodup) :
    (∀ m,
      (apexTargets RecordTypeA
        (((mutationPlan ipv4 ipv6 w.zone).take m).foldl Call.effect w.zone)).Nodup ∧
      (apexTargets RecordTypeAAAA
        (((mutationPlan ipv4 ipv6 w.zone).take m).foldl Call.effect w.zone)).Nodup) ∧
    (∃ m, (setDNS ipv4 ipv6 w).2.zone =
      ((mutationPlan ipv4 ipv6 w.zone).take m).foldl Call.effect w.zone) ∧
    (apexTargets RecordTypeA (setDNS ipv4 ipv6 w).2.zone).Nodup ∧
    (apexTargets RecordTypeAAAA (setDNS ipv4 ipv6 w).2.zone).Nodup := by
  have hall : ∀ m,
      (apexTargets RecordTypeA
        (((mutationPlan ipv4 ipv6 w.zone).take m).foldl Call.effect w.zone)).Nodup ∧
      (apexTargets RecordTypeAAAA
        (((mutationPlan ipv4 ipv6 w.zone).take m).foldl Call.effect w.zone)).Nodup := by
    intro m
    exact ⟨apexTargets_nodup_after RecordTypeA ipv4 ipv4 ipv6 w.zone m hE4 hD4
        (isStale_of_apex_A ipv4 ipv6) (created_targets_A ipv4 ipv6 w.zone),
      apexTargets_nodup_after RecordTypeAAAA ipv6 ipv4 ipv6 w.zone m hE6 hD6
        (isStale_of_apex_AAAA ipv4 ipv6) (created_targets_AAAA ipv4 ipv6 w.zone)⟩
  obtain ⟨m, hm⟩ := setDNS_zone_after_some_mutations ipv4 ipv6 w
  refine ⟨hall, ⟨m, hm⟩, ?_, ?_⟩
  · rw [hm]; exact (hall m).1
  · rw [hm]; exact (hall m).2

theorem setDNS_no_duplicates_witness :
    (apexTargets RecordTypeA (sampleCloud sampleZone (failAt 3)).zone).Nodup ∧
    (apexTargets RecordTypeAAAA (sampleCloud sampleZone (failAt 3)).zone).Nodup ∧
    ["1.1.1.1", "3.3.3.3"].Nodup ∧ ["::7"].Nodup ∧
    (apexTargets RecordTypeA
      (setDNS ["1.1.1.1", "3.3.3.3"] ["::7"] (sampleCloud sampleZone (failAt 3))).2.zone).Nodup :=
  ⟨by decide, by decide, by decide, by decide,
    (setDNS_no_duplicates ["1.1.1.1", "3.3.3.3"] ["::7"] (sampleCloud sampleZone (failAt 3))
      (by decide) (by decide) (by decide) (by decide)).2.2.1⟩

end Lkedns
